import Mathlib

/-!
# MNNR docs server (`go-server/main.go`): embedding and properties

The program is a small `net/http` server: two handlers (`healthHandler`,
`docsHandler`), two middleware (`securityHeadersMiddleware`,
`loggingMiddleware`), `getEnv`, and `main`, which registers three routes on a
gorilla/mux router and wraps it.

Embedding.  A handler does not return a value in Go; it acts on the
`http.ResponseWriter` it is given and on the process (clock, logger).  Here a
handler is a function that receives the writer as it stands on entry, the
request and the process state, and returns the list of calls it makes on the
writer (`Op`) together with the new process state.  `exec` runs such a list on a
`ResponseWriter` following the documented contract of `http.ResponseWriter`.
Library code (net/http, net/textproto, path, time, gorilla/mux) is written out
from its documented behaviour where the program depends on it.
-/

namespace GoServer

/-! ## net/textproto and net/http: header maps -/

/-- The bytes that may appear in a header field name (RFC 7230 token characters):
digits, letters and the fifteen punctuation marks of a token. -/
def validHeaderFieldByte (c : Char) : Bool :=
  let n := c.toNat
  (48 ≤ n && n ≤ 57) || (65 ≤ n && n ≤ 90) || (97 ≤ n && n ≤ 122) ||
    [33, 35, 36, 37, 38, 39, 42, 43, 45, 46, 94, 95, 96, 124, 126].contains n

/-- The rewriting loop of `textproto.canonicalMIMEHeaderKey`: the first letter and
every letter after a hyphen become upper case, all other letters lower case. -/
def canonicalBytes : Bool → List Char → List Char
  | _, [] => []
  | upper, c :: cs =>
    let c1 :=
      if upper && 97 ≤ c.toNat && c.toNat ≤ 122 then Char.ofNat (c.toNat - 32)
      else if !upper && 65 ≤ c.toNat && c.toNat ≤ 90 then Char.ofNat (c.toNat + 32)
      else c
    c1 :: canonicalBytes (c1 == '-') cs

/-- The function `textproto.CanonicalMIMEHeaderKey`: a key holding a byte that is not
allowed in a field name (a space, a non-ASCII byte) is returned unchanged. -/
def CanonicalMIMEHeaderKey (s : String) : String :=
  if s.data.all validHeaderFieldByte then String.mk (canonicalBytes true s.data) else s

/-- The type `http.Header`, a `map[string][]string`: `none` is a key that is absent. -/
abbrev Header := String → Option (List String)

/-- The empty header map. -/
def Header.empty : Header := fun _ => none

/-- The method `Header.Set`: the canonical key is bound to the single value. -/
def Header.Set (h : Header) (key value : String) : Header :=
  fun k => if k = CanonicalMIMEHeaderKey key then some [value] else h k

/-- The method `Header.Add`: the value is appended to those of the canonical key. -/
def Header.Add (h : Header) (key value : String) : Header :=
  fun k => if k = CanonicalMIMEHeaderKey key then some ((h k).getD [] ++ [value]) else h k

/-- The method `Header.Del`: the canonical key is removed. -/
def Header.Del (h : Header) (key : String) : Header :=
  fun k => if k = CanonicalMIMEHeaderKey key then none else h k

/-- The method `Header.Values`: the values bound to the canonical key. -/
def Header.Values (h : Header) (key : String) : Option (List String) :=
  h (CanonicalMIMEHeaderKey key)

/-- The method `Header.Get`: the first value of the canonical key, or the empty string. -/
def Header.Get (h : Header) (key : String) : String :=
  match h.Values key with
  | some (v :: _) => v
  | _ => ""

/-! ## time: monotonic readings, durations, seconds as float64 -/

/-- A `time.Time` as this program observes it: its rendering by
`UTC().Format(time.RFC3339)` and its monotonic clock reading (an int64 count of
nanoseconds). -/
structure Time where
  utcRFC3339 : String
  mono : Int
  mono_ge : -9223372036854775808 ≤ mono
  mono_lt : mono < 9223372036854775808

/-- Two's complement wrap of an integer to int64. -/
def wrapInt64 (x : Int) : Int :=
  (x + 9223372036854775808) % 18446744073709551616 - 9223372036854775808

/-- The constant `maxDuration` of package time. -/
def maxDuration : Int := 9223372036854775807

/-- The constant `minDuration` of package time. -/
def minDuration : Int := -9223372036854775808

/-- The function `time.subMono`: the int64 difference of two monotonic readings,
saturated when the subtraction overflows. -/
def subMono (t u : Int) : Int :=
  let d := wrapInt64 (t - u)
  if d < 0 ∧ t > u then maxDuration
  else if d > 0 ∧ t < u then minDuration
  else d

/-- Round a rational to the nearest integer, ties to the even one. -/
def roundNearestEven (x : ℚ) : ℤ :=
  let f := ⌊x⌋
  let r := x - f
  if r < 1 / 2 then f
  else if 1 / 2 < r then f + 1
  else if f % 2 = 0 then f
  else f + 1

/-- Round a positive rational to 53 significant bits, ties to even: with
`2 ^ e ≤ x < 2 ^ (e + 1)` the result is a multiple of `2 ^ (e - 52)`; below the
normal range (`e < -1022`) the spacing stays `2 ^ (-1074)`. -/
def roundPos (x : ℚ) : ℚ :=
  let e := max (Int.log 2 x) (-1022)
  let q := (2 : ℚ) ^ (e - 52)
  roundNearestEven (x / q) * q

/-- The value of a float64 operation whose exact result is `x`: IEEE 754 binary64
round-to-nearest-even, applied to the magnitude.  Overflow to infinity (results of
`2 ^ 1024` and more) is not represented; no value in this program comes near it. -/
def roundF64 (x : ℚ) : ℚ :=
  if x = 0 then 0
  else if 0 < x then roundPos x
  else -roundPos (-x)

/-- The constant `time.Second`, in nanoseconds. -/
def Second : Int := 1000000000

/-- The method `Duration.Seconds`:
`sec := d / Second; nsec := d % Second; return float64(sec) + float64(nsec)/1e9`,
with Go's truncating integer division and float64 rounding after each operation. -/
def Seconds (d : Int) : ℚ :=
  let sec := d.tdiv Second
  let nsec := d.tmod Second
  roundF64 (roundF64 (sec : ℚ) + roundF64 (roundF64 (nsec : ℚ) / 1000000000))

/-! ## os, runtime -/

/-- The function `os.LookupEnv` over the process environment, a list of `key=value`
entries: the first entry for the key counts, and the empty key is never found. -/
def LookupEnv (environ : List (String × String)) (key : String) : Option String :=
  if key = "" then none else environ.lookup key

/-- The fields of `runtime.MemStats` that the program reads: three uint64 byte
counts and the uint32 count of completed collection cycles. -/
structure MemStats where
  Alloc : Nat
  TotalAlloc : Nat
  Sys : Nat
  NumGC : Nat
  Alloc_lt : Alloc < 2 ^ 64
  TotalAlloc_lt : TotalAlloc < 2 ^ 64
  Sys_lt : Sys < 2 ^ 64
  NumGC_lt : NumGC < 2 ^ 32

/-- The conversion `uint64(x)` of an unsigned integer. -/
def uint64 (x : Nat) : Nat := x % 2 ^ 64

/-! ## The program's data -/

/-- HealthResponse represents the health check response. -/
structure HealthResponse where
  Status : String
  Timestamp : String
  Environment : String
  Version : String
  Uptime : ℚ
  Memory : List (String × Nat)
  GoVersion : String
deriving DecidableEq

/-! ## net/http: requests, response writers, handlers -/

/-- The part of `url.URL` the server uses: the decoded path, and the text that
`(*URL).String()` gives for a copy of the URL whose path has been replaced. -/
structure URL where
  Path : String
  withPath : String → String

/-- The fields of `http.Request` read by the program and by the router. -/
structure Request where
  Method : String
  URL : URL
  RequestURI : String
  RemoteAddr : String

/-- What a handler hands to `Write`: raw bytes, or the JSON text that
`json.NewEncoder(w).Encode(v)` produces for a value (the encoder makes one `Write`
call with the encoding of `v` and a newline). -/
inductive Chunk where
  | bytes (s : String)
  | json (v : HealthResponse)
deriving DecidableEq

/-- A call on the `http.ResponseWriter`. -/
inductive Op where
  | headerSet (key value : String)
  | headerAdd (key value : String)
  | headerDel (key : String)
  | writeHeader (code : Nat)
  | write (data : Chunk)
deriving DecidableEq

/-- The state behind an `http.ResponseWriter`: the header map the handler edits,
whether the status line and headers have been sent, the status and the headers
that were sent, and the body written so far. -/
structure ResponseWriter where
  header : Header
  wroteHeader : Bool
  status : Nat
  sent : Header
  body : List Chunk

/-- The writer the server creates for a new request. -/
def ResponseWriter.new : ResponseWriter :=
  { header := Header.empty, wroteHeader := false, status := 0, sent := Header.empty, body := [] }

/-- The method `WriteHeader`: the first call with a final status sends the status
and a copy of the header map; later calls are ignored; a 1xx status other than 101
sends an interim response and leaves the writer open. -/
def ResponseWriter.WriteHeader (w : ResponseWriter) (code : Nat) : ResponseWriter :=
  if w.wroteHeader then w
  else if 100 ≤ code ∧ code ≤ 199 ∧ code ≠ 101 then w
  else { w with wroteHeader := true, status := code, sent := w.header }

/-- The function `bodyAllowedForStatus` of net/http. -/
def bodyAllowedForStatus (status : Nat) : Bool :=
  if 100 ≤ status ∧ status ≤ 199 then false
  else if status = 204 then false
  else if status = 304 then false
  else true

/-- The method `Write`: sends status 200 first when nothing was sent yet; then
empty data is dropped, and other data is appended if the status allows a body. -/
def ResponseWriter.Write (w : ResponseWriter) (data : Chunk) : ResponseWriter :=
  let w1 := w.WriteHeader 200
  if data = .bytes "" then w1
  else if bodyAllowedForStatus w1.status then { w1 with body := w1.body ++ [data] }
  else w1

/-- Run one call on the writer. -/
def Op.apply (w : ResponseWriter) : Op → ResponseWriter
  | .headerSet k v => { w with header := w.header.Set k v }
  | .headerAdd k v => { w with header := w.header.Add k v }
  | .headerDel k => { w with header := w.header.Del k }
  | .writeHeader code => w.WriteHeader code
  | .write data => w.Write data

/-- Run a sequence of calls on the writer, in order. -/
def exec (w : ResponseWriter) (ops : List Op) : ResponseWriter :=
  ops.foldl Op.apply w

/-- What the server does when the handler has returned: a handler that sent
nothing gets status 200 with the headers as they stand. -/
def finishRequest (w : ResponseWriter) : ResponseWriter :=
  w.WriteHeader 200

/-- An argument of a `log.Printf` call. -/
inductive LogArg where
  | str (s : String)
  | duration (d : Int)
deriving DecidableEq

/-- One `log.Printf` call: the format and its arguments.  The date and time the
logger puts in front of the line are not recorded. -/
structure LogEntry where
  format : String
  args : List LogArg
deriving DecidableEq

/-- The process around the handlers: the package variable `startTime`, the
environment, the successive readings of the clock and how many have been taken,
what the runtime reports, and the lines logged so far. -/
structure World where
  startTime : Time
  environ : List (String × String)
  clock : Nat → Time
  reads : Nat
  memStats : MemStats
  goVersion : String
  log : List LogEntry

/-- The function `time.Now`: the next reading of the clock. -/
def World.Now (σ : World) : Time × World :=
  (σ.clock σ.reads, { σ with reads := σ.reads + 1 })

/-- The function `time.Since(t)` for a `t` with a monotonic reading: the next
reading of the monotonic clock minus that of `t`. -/
def World.Since (σ : World) (t : Time) : Int × World :=
  (subMono (σ.clock σ.reads).mono t.mono, { σ with reads := σ.reads + 1 })

/-- The function `log.Printf` on the standard logger. -/
def World.Printf (σ : World) (format : String) (args : List LogArg) : World :=
  { σ with log := σ.log ++ [{ format := format, args := args }] }

/-- An `http.Handler`: given the writer as it stands, the request and the process,
the calls it makes on the writer and the process afterwards. -/
abbrev Handler := ResponseWriter → Request → World → List Op × World

/-- The method `ServeHTTP`: the writer and the process after the handler has run. -/
def Handler.ServeHTTP (h : Handler) (w : ResponseWriter) (r : Request) (σ : World) :
    ResponseWriter × World :=
  (exec w (h w r σ).1, (h w r σ).2)

/-! ## The program: `getEnv` and the two handlers -/

/-- Source: `getEnv(key, fallback string) string`, lines 236-241. -/
def getEnv (environ : List (String × String)) (key fallback : String) : String :=
  match LookupEnv environ key with
  | some value => value
  | none => fallback

/-- Source: `healthHandler`, lines 30-55.  healthHandler returns system health
information. -/
def healthHandler : Handler := fun _w _r σ =>
  let m := σ.memStats
  let (now, σ1) := σ.Now
  let environment := getEnv σ.environ "NODE_ENV" "development"
  let (since, σ2) := σ1.Since σ.startTime
  let response : HealthResponse :=
    { Status := "ok"
      Timestamp := now.utcRFC3339
      Environment := environment
      Version := "1.0.0"
      Uptime := Seconds since
      Memory :=
        [ ("alloc", m.Alloc),
          ("total_alloc", m.TotalAlloc),
          ("sys", m.Sys),
          ("num_gc", uint64 m.NumGC) ]
      GoVersion := σ.goVersion }
  ( [ .headerSet "Content-Type" "application/json",
      .headerSet "Cache-Control" "no-cache, no-store, must-revalidate",
      .headerSet "Pragma" "no-cache",
      .headerSet "Expires" "0",
      .write (.json response) ],
    σ2 )

/-- The constant `html` of `docsHandler`: the raw string literal of the source, byte for byte. -/
def docsHTML : String :=
"<!DOCTYPE html>
<html lang=\"en\">
<head>
    <meta charset=\"UTF-8\">
    <meta name=\"viewport\" content=\"width=device-width, initial-scale=1.0\">
    <title>Documentation - MNNR</title>
    <meta name=\"description\" content=\"Complete documentation for MNNR platform features, security, and deployment guides.\">
    <style>
        * \x7b margin: 0; padding: 0; box-sizing: border-box; \x7d
        body \x7b
            font-family: -apple-system, BlinkMacSystemFont, 'Segoe UI', Roboto, Oxygen, Ubuntu, Cantarell, sans-serif;
            background: linear-gradient(to bottom, #ffffff, #f7f7f7);
            min-height: 100vh;
        \x7d
        .container \x7b max-width: 1200px; margin: 0 auto; padding: 3rem 1.5rem; \x7d
        .header \x7b text-align: center; margin-bottom: 4rem; \x7d
        .header h1 \x7b font-size: 2.5rem; color: #1a1a1a; margin-bottom: 1rem; \x7d
        .header p \x7b font-size: 1.25rem; color: #666; max-width: 800px; margin: 0 auto; \x7d
        .grid \x7b display: grid; grid-template-columns: repeat(auto-fit, minmax(300px, 1fr)); gap: 2rem; margin-bottom: 4rem; \x7d
        .card \x7b
            background: white;
            border-radius: 0.5rem;
            padding: 2rem;
            box-shadow: 0 4px 6px rgba(0,0,0,0.1);
            border: 1px solid #e0e0e0;
            transition: transform 0.2s;
        \x7d
        .card:hover \x7b transform: translateY(-4px); box-shadow: 0 6px 12px rgba(0,0,0,0.15); \x7d
        .card-icon \x7b
            width: 3rem;
            height: 3rem;
            border-radius: 0.5rem;
            display: flex;
            align-items: center;
            justify-content: center;
            margin-bottom: 1rem;
        \x7d
        .card-icon.green \x7b background: #d4edda; color: #155724; \x7d
        .card-icon.blue \x7b background: #cce5ff; color: #004085; \x7d
        .card-icon.purple \x7b background: #e7d4f7; color: #5a1a7a; \x7d
        .card-icon.orange \x7b background: #ffe5cc; color: #cc5200; \x7d
        .card-icon.gray \x7b background: #e9ecef; color: #495057; \x7d
        .card h2 \x7b font-size: 1.5rem; margin-bottom: 1rem; color: #1a1a1a; \x7d
        .card p \x7b color: #666; margin-bottom: 1rem; line-height: 1.6; \x7d
        .card a \x7b color: #007bff; text-decoration: none; font-weight: 500; \x7d
        .card a:hover \x7b color: #0056b3; text-decoration: underline; \x7d
        .security-badge \x7b
            background: #d4edda;
            border: 1px solid #c3e6cb;
            border-radius: 0.5rem;
            padding: 2rem;
            text-align: center;
        \x7d
        .badge-icon \x7b
            width: 4rem;
            height: 4rem;
            background: #c3e6cb;
            border-radius: 50%;
            display: flex;
            align-items: center;
            justify-content: center;
            margin: 0 auto 1rem;
            font-size: 2rem;
        \x7d
        .security-badge h3 \x7b font-size: 1.75rem; color: #155724; margin-bottom: 0.5rem; \x7d
        .security-badge p \x7b color: #155724; \x7d
        .go-badge \x7b
            display: inline-block;
            background: #00add8;
            color: white;
            padding: 0.5rem 1rem;
            border-radius: 0.25rem;
            font-weight: bold;
            margin-top: 1rem;
        \x7d
    </style>
</head>
<body>
    <div class=\"container\">
        <div class=\"header\">
            <h1>MNNR Documentation</h1>
            <p>Everything you need to know about using, securing, and deploying the MNNR platform.</p>
            <div class=\"go-badge\">⚡ Powered by Go</div>
        </div>

        <div class=\"grid\">
            <div class=\"card\">
                <div class=\"card-icon green\">🔒</div>
                <h2>Security Guide</h2>
                <p>Comprehensive security documentation covering our 10/10 security implementation.</p>
                <a href=\"/docs/security\">Read Security Docs →</a>
            </div>

            <div class=\"card\">
                <div class=\"card-icon blue\">☁️</div>
                <h2>Deployment</h2>
                <p>Step-by-step production deployment guide with Vercel, Supabase, and monitoring setup.</p>
                <a href=\"/docs/deployment\">View Deployment Guide →</a>
            </div>

            <div class=\"card\">
                <div class=\"card-icon purple\">💻</div>
                <h2>API Reference</h2>
                <p>Complete API documentation for webhooks, authentication, and subscription management.</p>
                <a href=\"/docs/api\">Explore API →</a>
            </div>

            <div class=\"card\">
                <div class=\"card-icon orange\">🏢</div>
                <h2>Enterprise</h2>
                <p>Enterprise-grade features including monitoring, logging, and advanced security configurations.</p>
                <a href=\"/docs/enterprise\">Enterprise Features →</a>
            </div>

            <div class=\"card\">
                <div class=\"card-icon gray\">📋</div>
                <h2>Changelog</h2>
                <p>Track all updates, security improvements, and new features in our detailed changelog.</p>
                <a href=\"/docs/changelog\">View Changelog →</a>
            </div>

            <div class=\"card\">
                <div class=\"card-icon green\">⚡</div>
                <h2>Quick Start</h2>
                <p>Get up and running quickly with our step-by-step quick start guide.</p>
                <a href=\"/docs/quick-start\">Quick Start Guide →</a>
            </div>
        </div>

        <div class=\"security-badge\">
            <div class=\"badge-icon\">✓</div>
            <h3>🔒 Security Score: 10/10</h3>
            <p>Enterprise-grade security with Redis rate limiting, Sentry monitoring, and comprehensive logging</p>
        </div>
    </div>
</body>
</html>"
/-- Source: `docsHandler`, lines 58-200.  docsHandler serves the documentation page. -/
def docsHandler : Handler := fun _w _r σ =>
  ( [ .headerSet "Content-Type" "text/html; charset=utf-8",
      .writeHeader 200,
      .write (.bytes docsHTML) ],
    σ )

/-! ## The program: middleware -/

/-- Source: `securityHeadersMiddleware`, lines 203-217.  securityHeadersMiddleware
adds security headers to all responses. -/
def securityHeadersMiddleware (next : Handler) : Handler := fun w r σ =>
  let ops : List Op :=
    [ .headerSet "X-DNS-Prefetch-Control" "on",
      .headerSet "Strict-Transport-Security" "max-age=63072000; includeSubDomains; preload",
      .headerSet "X-Frame-Options" "SAMEORIGIN",
      .headerSet "X-Content-Type-Options" "nosniff",
      .headerSet "X-XSS-Protection" "1; mode=block",
      .headerSet "Referrer-Policy" "strict-origin-when-cross-origin",
      .headerSet "Permissions-Policy" "camera=(), microphone=(), geolocation=()",
      .headerSet "Server" "MNNR-Go" ]
  let (rest, σ1) := next (exec w ops) r σ
  (ops ++ rest, σ1)

/-- Source: `loggingMiddleware`, lines 220-234.  loggingMiddleware logs all requests. -/
def loggingMiddleware (next : Handler) : Handler := fun w r σ =>
  let (start, σ1) := σ.Now
  let (ops, σ2) := next w r σ1
  let (elapsed, σ3) := σ2.Since start
  (ops, σ3.Printf "%s %s %s %v"
    [.str r.Method, .str r.RequestURI, .str r.RemoteAddr, .duration elapsed])

/-! ## path and gorilla/mux: the router -/

/-- Split a path at its slashes. -/
def splitSlash : List Char → List (List Char)
  | [] => [[]]
  | c :: cs =>
    match splitSlash cs with
    | [] => [[]]
    | seg :: rest => if c = '/' then [] :: seg :: rest else (c :: seg) :: rest

/-- The elements that `path.Clean` keeps, innermost last in `stack`: an empty
element and `.` are dropped, `..` removes the element before it (at the root it is
dropped). -/
def cleanSegments (stack : List (List Char)) : List (List Char) → List (List Char)
  | [] => stack.reverse
  | seg :: rest =>
    if seg = [] ∨ seg = ['.'] then cleanSegments stack rest
    else if seg = ['.', '.'] then cleanSegments stack.tail rest
    else cleanSegments (seg :: stack) rest

/-- Write the elements back with a slash in front of each. -/
def joinSegments : List (List Char) → List Char
  | [] => []
  | seg :: rest => '/' :: seg ++ joinSegments rest

/-- The function `path.Clean` on a path that starts with a slash. -/
def pathCleanRooted (p : List Char) : List Char :=
  match cleanSegments [] (splitSlash p) with
  | [] => ['/']
  | segs => joinSegments segs

/-- The function `cleanPath` of gorilla/mux: the empty path is `/`, a leading slash
is supplied, the path is cleaned, and a trailing slash is put back. -/
def cleanPath (p : String) : String :=
  if p = "" then "/"
  else
    let p1 := if p.data.head? ≠ some '/' then '/' :: p.data else p.data
    let np := pathCleanRooted p1
    if p1.getLast? = some '/' ∧ np ≠ ['/'] then String.mk (np ++ ['/']) else String.mk np

/-- The error values a match can carry. -/
inductive MatchErr where
  | ErrMethodMismatch
  | ErrNotFound
deriving DecidableEq

/-- A matcher of a route.  `routeRegexp template` is the path matcher of a template
without variables, whose pattern `^template$` matches the template only;
`methodMatcher` holds the allowed methods. -/
inductive Matcher where
  | routeRegexp (template : String)
  | methodMatcher (methods : List String)
deriving DecidableEq

/-- The method `Match` of a matcher: the path matcher reads `req.URL.Path`, the
method matcher looks `req.Method` up in its list. -/
def Matcher.Match (m : Matcher) (req : Request) : Bool :=
  match m with
  | .routeRegexp template => req.URL.Path = template
  | .methodMatcher methods => methods.contains req.Method

/-- A `mux.Route`: its matchers in the order they were added, and its handler. -/
structure Route where
  matchers : List Matcher
  handler : Option Handler

/-- The fields of `mux.RouteMatch` that dispatch depends on. -/
structure RouteMatch where
  Handler : Option Handler
  MatchErr : Option MatchErr

/-- The loop and tail of `(*Route).Match` (mux 1.8.1): `matchErr` is the local of
that name, `m` the `*RouteMatch` being filled in. -/
def Route.matchAll (rt : Route) (req : Request) :
    List Matcher → Option MatchErr → RouteMatch → Bool × RouteMatch
  | [], some e, m => (false, { m with MatchErr := some e })
  | [], none, m =>
    let m1 : RouteMatch :=
      if m.MatchErr = some .ErrMethodMismatch ∧ rt.handler.isSome then
        { MatchErr := none, Handler := rt.handler }
      else m
    let m2 : RouteMatch :=
      if m1.Handler.isNone then { m1 with Handler := rt.handler } else m1
    (true, m2)
  | mt :: rest, matchErr, m =>
    if mt.Match req then
      rt.matchAll req rest matchErr
        (if m.MatchErr = some .ErrMethodMismatch then { m with MatchErr := none } else m)
    else
      match mt with
      | .methodMatcher _ => rt.matchAll req rest (some .ErrMethodMismatch) m
      | .routeRegexp _ =>
        (false, if m.MatchErr = some .ErrNotFound then { m with MatchErr := none } else m)

/-- The method `(*Route).Match`. -/
def Route.Match (rt : Route) (req : Request) (m : RouteMatch) : Bool × RouteMatch :=
  rt.matchAll req rt.matchers none m

/-- A `mux.Router` as `NewRouter` makes it and `HandleFunc` extends it: its routes
in registration order; no custom not-found or method-not-allowed handler, no
router middleware, path cleaning on. -/
structure Router where
  routes : List Route

/-- The function `mux.NewRouter`. -/
def NewRouter : Router := { routes := [] }

/-- Upper-casing of the ASCII letters, as `strings.ToUpper` does on a method name. -/
def toUpperASCII (s : String) : String := String.mk (s.data.map Char.toUpper)

/-- The method `(*Route).Methods`: adds a method matcher with the names in upper case. -/
def Route.Methods (methods : List String) (rt : Route) : Route :=
  { rt with matchers := rt.matchers ++ [.methodMatcher (methods.map toUpperASCII)] }

/-- The call `router.HandleFunc(path, f)` followed by the calls chained on the
route it returns: a new route with a path matcher and the handler is appended. -/
def Router.HandleFunc (rtr : Router) (path : String) (f : Handler) (chained : Route → Route) :
    Router :=
  { routes := rtr.routes ++ [chained { matchers := [.routeRegexp path], handler := some f }] }

/-- The loop and tail of `(*Router).Match`: the first route that matches wins; when
none does, a method mismatch is kept and anything else becomes `ErrNotFound`. -/
def Router.matchRoutes (req : Request) : List Route → RouteMatch → Bool × RouteMatch
  | [], m =>
    if m.MatchErr = some .ErrMethodMismatch then (false, m)
    else (false, { m with MatchErr := some .ErrNotFound })
  | rt :: rest, m =>
    if (rt.Match req m).1 then (true, (rt.Match req m).2)
    else Router.matchRoutes req rest (rt.Match req m).2

/-- The method `(*Router).Match`. -/
def Router.Match (rtr : Router) (req : Request) (m : RouteMatch) : Bool × RouteMatch :=
  Router.matchRoutes req rtr.routes m

/-- The handler `mux.methodNotAllowedHandler()`: status 405 and no body. -/
def methodNotAllowedHandler : Handler := fun _w _r σ =>
  ([.writeHeader 405], σ)

/-- The handler `http.NotFoundHandler()`, that is
`http.Error(w, "404 page not found", http.StatusNotFound)`. -/
def NotFoundHandler : Handler := fun _w _r σ =>
  ( [ .headerDel "Content-Length",
      .headerSet "Content-Type" "text/plain; charset=utf-8",
      .headerSet "X-Content-Type-Options" "nosniff",
      .writeHeader 404,
      .write (.bytes "404 page not found\n") ],
    σ )

/-- The redirect `(*Router).ServeHTTP` answers with when the path is not clean. -/
def redirectOps (req : Request) : List Op :=
  [.headerSet "Location" (req.URL.withPath (cleanPath req.URL.Path)), .writeHeader 301]

/-- The method `(*Router).ServeHTTP`. -/
def Router.ServeHTTP (rtr : Router) : Handler := fun w req σ =>
  if cleanPath req.URL.Path ≠ req.URL.Path then (redirectOps req, σ)
  else
    let res := rtr.Match req { Handler := none, MatchErr := none }
    let handler : Option Handler := if res.1 then res.2.Handler else none
    match handler with
    | some h => h w req σ
    | none =>
      if res.2.MatchErr = some .ErrMethodMismatch then methodNotAllowedHandler w req σ
      else NotFoundHandler w req σ

/-! ## The program: `main` -/

/-- The fields of `cors.Options` that `main` sets. -/
structure CorsOptions where
  AllowedOrigins : List String
  AllowedMethods : List String
  AllowedHeaders : List String
  AllowCredentials : Bool
deriving DecidableEq

/-- Source: lines 246-253 of `main`, the router and its routes. -/
def mainRouter : Router :=
  ((NewRouter.HandleFunc "/api/health" healthHandler (Route.Methods ["GET"])).HandleFunc
    "/docs" docsHandler (Route.Methods ["GET"])).HandleFunc
    "/" docsHandler (Route.Methods ["GET"])

/-- Source: lines 260-265 of `main`, the options given to `cors.New`. -/
def mainCorsOptions : CorsOptions :=
  { AllowedOrigins := ["*"]
    AllowedMethods := ["GET", "POST", "PUT", "DELETE", "OPTIONS"]
    AllowedHeaders := ["Accept", "Content-Type", "Content-Length", "Authorization"]
    AllowCredentials := true }

/-- Source: lines 255-267 of `main`, the handler that is served.  The wrapper that
`cors.New(options).Handler` builds belongs to the rs/cors library and is a
parameter. -/
def mainHandler (corsHandler : CorsOptions → Handler → Handler) : Handler :=
  let handler := securityHeadersMiddleware mainRouter.ServeHTTP
  let handler := loggingMiddleware handler
  corsHandler mainCorsOptions handler

/-- What `main` hands to `http.ListenAndServe`. -/
structure Server where
  Addr : String
  Handler : Handler

/-- Source: `main`, lines 243-275, up to the call of `http.ListenAndServe`: the
address and handler it is called with, and the process after the three start-up
log lines. -/
def main (corsHandler : CorsOptions → Handler → Handler) (σ : World) : Server × World :=
  let port := getEnv σ.environ "PORT" "8080"
  let handler := mainHandler corsHandler
  let σ1 := σ.Printf "🚀 MNNR Docs Server (Go) starting on port %s" [.str port]
  let σ2 := σ1.Printf "📚 Documentation: http://localhost:%s/docs" [.str port]
  let σ3 := σ2.Printf "❤️  Health Check: http://localhost:%s/api/health" [.str port]
  ({ Addr := ":" ++ port, Handler := handler }, σ3)

/-! ## Observations used to state the properties -/

/-- The eight header names and values of `securityHeadersMiddleware`, as the
specification lists them. -/
def securityHeaders : List (String × String) :=
  [ ("X-DNS-Prefetch-Control", "on"),
    ("Strict-Transport-Security", "max-age=63072000; includeSubDomains; preload"),
    ("X-Frame-Options", "SAMEORIGIN"),
    ("X-Content-Type-Options", "nosniff"),
    ("X-XSS-Protection", "1; mode=block"),
    ("Referrer-Policy", "strict-origin-when-cross-origin"),
    ("Permissions-Policy", "camera=(), microphone=(), geolocation=()"),
    ("Server", "MNNR-Go") ]

/-- The header name a call writes, in canonical form; `none` for a call that does
not touch the header map. -/
def Op.writtenKey : Op → Option String
  | .headerSet k _ => some (CanonicalMIMEHeaderKey k)
  | .headerAdd k _ => some (CanonicalMIMEHeaderKey k)
  | .headerDel k => some (CanonicalMIMEHeaderKey k)
  | .writeHeader _ => none
  | .write _ => none

/-- The call writes one of the given header names (names compared in canonical
form, that is, without regard to case). -/
def Op.writesAny (names : List String) (op : Op) : Bool :=
  match op.writtenKey with
  | some k => (names.map CanonicalMIMEHeaderKey).contains k
  | none => false

/-- The values handed to the JSON encoder by a sequence of calls. -/
def encodedValues : List Op → List HealthResponse
  | [] => []
  | .write (.json v) :: rest => v :: encodedValues rest
  | _ :: rest => encodedValues rest

/-- The text from the start of the list up to the next double quote. -/
def takeUntilQuote : List Char → List Char
  | [] => []
  | c :: cs => if c = '"' then [] else c :: takeUntilQuote cs

/-- The targets of the anchors `<a href="...">` of a document, in order. -/
def anchorTargets : List Char → List String
  | [] => []
  | c :: cs =>
    if "<a href=\"".data.isPrefixOf (c :: cs) then
      String.mk (takeUntilQuote (cs.drop 8)) :: anchorTargets cs
    else anchorTargets cs

/-- How many times a piece of text occurs in a document. -/
def countPattern (pat : List Char) : List Char → Nat
  | [] => 0
  | c :: cs => (if pat.isPrefixOf (c :: cs) then 1 else 0) + countPattern pat cs

/-- The calls `securityHeadersMiddleware` makes before it delegates: one
`Header().Set` per entry of the table. -/
def securityOps : List Op :=
  securityHeaders.map (fun kv => Op.headerSet kv.1 kv.2)

/-- The header map binds each of the eight security headers to its one value. -/
def Header.hasSecurityHeaders (h : Header) : Prop :=
  ∀ kv ∈ securityHeaders, h.Values kv.1 = some [kv.2]

/-- The call leaves the eight security headers as the middleware set them: it
writes none of the eight names, or it sets one of them to the value of the table. -/
def Op.keepsSecurityHeaders (op : Op) : Bool :=
  !op.writesAny (securityHeaders.map Prod.fst) ||
    match op with
    | .headerSet k v =>
      (securityHeaders.map (fun kv => (CanonicalMIMEHeaderKey kv.1, kv.2))).contains
        (CanonicalMIMEHeaderKey k, v)
    | _ => false

/-! ## Concrete inputs -/

/-- A clock that advances by a tenth of a second per reading. -/
def sampleClock : Nat → Time := fun n =>
  { utcRFC3339 := "2024-01-15T10:30:00Z"
    mono := 1000 + 100000000 * ((n % 100 : Nat) : Int)
    mono_ge := by omega
    mono_lt := by omega }

/-- A memory-statistics sample. -/
def sampleMemStats : MemStats :=
  { Alloc := 1048576, TotalAlloc := 2097152, Sys := 8388608, NumGC := 3
    Alloc_lt := by norm_num, TotalAlloc_lt := by norm_num, Sys_lt := by norm_num
    NumGC_lt := by norm_num }

/-- A sample in which every statistic is zero. -/
def zeroMemStats : MemStats :=
  { Alloc := 0, TotalAlloc := 0, Sys := 0, NumGC := 0
    Alloc_lt := by norm_num, TotalAlloc_lt := by norm_num, Sys_lt := by norm_num
    NumGC_lt := by norm_num }

/-- A process with the given environment, started at the clock's reading 0. -/
def sampleWorld (environ : List (String × String)) : World :=
  { startTime := sampleClock 0
    environ := environ
    clock := sampleClock
    reads := 1
    memStats := sampleMemStats
    goVersion := "go1.22.0"
    log := [] }

/-- A request with the given method and path. -/
def sampleRequest (method path : String) : Request :=
  { Method := method
    URL := { Path := path, withPath := fun p => p }
    RequestURI := path
    RemoteAddr := "127.0.0.1:50000" }

/-! ## Lemmas on the header map and the writer -/

theorem canonical_healthKeys :
    CanonicalMIMEHeaderKey "Content-Type" = "Content-Type" ∧
    CanonicalMIMEHeaderKey "Cache-Control" = "Cache-Control" ∧
    CanonicalMIMEHeaderKey "Pragma" = "Pragma" ∧
    CanonicalMIMEHeaderKey "Expires" = "Expires" := by
  decide

theorem securityHeaders_not_healthKeys :
    ∀ kv ∈ securityHeaders,
      CanonicalMIMEHeaderKey kv.1 ∉ ["Content-Type", "Cache-Control", "Pragma", "Expires"] := by
  decide

theorem lookup_some_mem (l : List (String × String)) (k v : String)
    (h : l.lookup k = some v) : (k, v) ∈ l := by
  induction l with
  | nil => simp at h
  | cons a l ih =>
    obtain ⟨a1, a2⟩ := a
    by_cases hk : k = a1
    · subst hk
      simp [List.lookup] at h
      simp [h]
    · have hb : (k == a1) = false := by simpa using hk
      simp [List.lookup, hb] at h
      exact List.mem_cons_of_mem _ (ih h)

theorem lookup_none_of_not_mem (l : List (String × String)) (k : String)
    (h : k ∉ l.map Prod.fst) : l.lookup k = none := by
  induction l with
  | nil => rfl
  | cons a l ih =>
    obtain ⟨a1, a2⟩ := a
    simp only [List.map_cons, List.mem_cons, not_or] at h
    have hb : (k == a1) = false := by simpa using h.1
    simp [List.lookup, hb, ih h.2]

theorem getEnv_of_none (environ : List (String × String)) (key fallback : String)
    (h : LookupEnv environ key = none) : getEnv environ key fallback = fallback := by
  simp [getEnv, h]

theorem getEnv_of_some (environ : List (String × String)) (key fallback value : String)
    (h : LookupEnv environ key = some value) : getEnv environ key fallback = value := by
  simp [getEnv, h]

theorem healthHandler_ops (w : ResponseWriter) (r : Request) (σ : World) :
    (healthHandler w r σ).1 =
      [ .headerSet "Content-Type" "application/json",
        .headerSet "Cache-Control" "no-cache, no-store, must-revalidate",
        .headerSet "Pragma" "no-cache",
        .headerSet "Expires" "0",
        .write (.json
          { Status := "ok"
            Timestamp := (σ.clock σ.reads).utcRFC3339
            Environment := getEnv σ.environ "NODE_ENV" "development"
            Version := "1.0.0"
            Uptime := Seconds (subMono (σ.clock (σ.reads + 1)).mono σ.startTime.mono)
            Memory :=
              [ ("alloc", σ.memStats.Alloc),
                ("total_alloc", σ.memStats.TotalAlloc),
                ("sys", σ.memStats.Sys),
                ("num_gc", uint64 σ.memStats.NumGC) ]
            GoVersion := σ.goVersion }) ] := by
  rfl

theorem healthHandler_encoded (w : ResponseWriter) (r : Request) (σ : World) :
    encodedValues (healthHandler w r σ).1 =
      [ { Status := "ok"
          Timestamp := (σ.clock σ.reads).utcRFC3339
          Environment := getEnv σ.environ "NODE_ENV" "development"
          Version := "1.0.0"
          Uptime := Seconds (subMono (σ.clock (σ.reads + 1)).mono σ.startTime.mono)
          Memory :=
            [ ("alloc", σ.memStats.Alloc),
              ("total_alloc", σ.memStats.TotalAlloc),
              ("sys", σ.memStats.Sys),
              ("num_gc", uint64 σ.memStats.NumGC) ]
          GoVersion := σ.goVersion } ] := by
  rfl

theorem healthHandler_world (w : ResponseWriter) (r : Request) (σ : World) :
    (healthHandler w r σ).2 = { σ with reads := σ.reads + 2 } := by
  rfl

/-! ## C3: `getEnv` -/

/-- C3.  For every environment, key and fallback, `getEnv` is total and returns the
fallback exactly when `os.LookupEnv` reports the key absent; when the key is set it
returns the value, whatever the fallback, also when the value is the empty
string, and then the value is the one bound to the key in the environment. -/
theorem getEnv_spec (environ : List (String × String)) (key fallback : String) :
    (LookupEnv environ key = none → getEnv environ key fallback = fallback) ∧
    (∀ value, LookupEnv environ key = some value →
      getEnv environ key fallback = value ∧ (key, value) ∈ environ ∧
      ∀ other, getEnv environ key other = value) ∧
    (LookupEnv environ key = some "" → getEnv environ key fallback = "") ∧
    (∀ value rest, key ≠ "" →
      getEnv ((key, value) :: rest) key fallback = value) ∧
    (key ∉ environ.map Prod.fst → getEnv environ key fallback = fallback) := by
  refine ⟨getEnv_of_none environ key fallback, ?_, getEnv_of_some environ key fallback "", ?_, ?_⟩
  · intro value h
    refine ⟨getEnv_of_some environ key fallback value h, ?_, fun other =>
      getEnv_of_some environ key other value h⟩
    unfold LookupEnv at h
    split at h
    · cases h
    · exact lookup_some_mem environ key value h
  · intro value rest hk
    simp [getEnv, LookupEnv, hk, List.lookup]
  · intro hk
    apply getEnv_of_none
    unfold LookupEnv
    split
    · rfl
    · exact lookup_none_of_not_mem environ key hk

/-- C3 at concrete inputs: an unset name gives the fallback `x`; a set name gives
its value; a name set to the empty string gives the empty string. -/
theorem getEnv_spec_witness :
    getEnv [("PORT", "9090")] "NODE_ENV" "x" = "x" ∧
    getEnv [("PORT", "9090"), ("NODE_ENV", "production")] "NODE_ENV" "x" = "production" ∧
    getEnv [("NODE_ENV", "")] "NODE_ENV" "development" = "" := by
  refine ⟨(getEnv_spec [("PORT", "9090")] "NODE_ENV" "x").1 (by decide),
    ((getEnv_spec [("PORT", "9090"), ("NODE_ENV", "production")] "NODE_ENV" "x").2.1
      "production" (by decide)).1,
    (getEnv_spec [("NODE_ENV", "")] "NODE_ENV" "development").2.2.1 (by decide)⟩

/-! ## C4: the constant fields of the health response -/

/-- C4.  For every writer, request and process, `healthHandler` hands exactly one
value to the JSON encoder; its `Status` is `ok`, its `Version` is `1.0.0` and its
`Environment` is `getEnv("NODE_ENV", "development")`: `development` when NODE_ENV
is unset, the value of NODE_ENV when it is set.  The three fields are the same for
any other writer and request, and for any process with the same environment. -/
theorem healthHandler_constant_fields (w : ResponseWriter) (r : Request) (σ : World) :
    ∃ resp, encodedValues (healthHandler w r σ).1 = [resp] ∧
      resp.Status = "ok" ∧ resp.Version = "1.0.0" ∧
      resp.Environment = getEnv σ.environ "NODE_ENV" "development" ∧
      (LookupEnv σ.environ "NODE_ENV" = none → resp.Environment = "development") ∧
      (∀ value, LookupEnv σ.environ "NODE_ENV" = some value → resp.Environment = value) ∧
      (∀ (w2 : ResponseWriter) (r2 : Request) (σ2 : World), σ2.environ = σ.environ →
        ∃ resp2, encodedValues (healthHandler w2 r2 σ2).1 = [resp2] ∧
          resp2.Status = resp.Status ∧ resp2.Version = resp.Version ∧
          resp2.Environment = resp.Environment) := by
  refine ⟨_, healthHandler_encoded w r σ, rfl, rfl, rfl, ?_, ?_, ?_⟩
  · intro h
    exact getEnv_of_none _ _ _ h
  · intro value h
    exact getEnv_of_some _ _ _ _ h
  · intro w2 r2 σ2 h
    refine ⟨_, healthHandler_encoded w2 r2 σ2, rfl, rfl, ?_⟩
    simp only [h]

/-- C4 at concrete inputs: with `NODE_ENV=production` a GET and a POST request both
get `environment` = `production`; with NODE_ENV unset the field is `development`. -/
theorem healthHandler_constant_fields_witness :
    (encodedValues (healthHandler ResponseWriter.new (sampleRequest "GET" "/api/health")
      (sampleWorld [("NODE_ENV", "production")])).1).map
        (fun v => (v.Status, v.Version, v.Environment)) = [("ok", "1.0.0", "production")] ∧
    (encodedValues (healthHandler ResponseWriter.new (sampleRequest "POST" "/x")
      (sampleWorld [("NODE_ENV", "production")])).1).map
        (fun v => (v.Status, v.Version, v.Environment)) = [("ok", "1.0.0", "production")] ∧
    (encodedValues (healthHandler ResponseWriter.new (sampleRequest "GET" "/api/health")
      (sampleWorld [("PORT", "9090")])).1).map
        (fun v => (v.Status, v.Version, v.Environment)) = [("ok", "1.0.0", "development")] := by
  refine ⟨?_, ?_, ?_⟩
  · obtain ⟨resp, h1, h2, h3, _, _, h5, _⟩ := healthHandler_constant_fields ResponseWriter.new
      (sampleRequest "GET" "/api/health") (sampleWorld [("NODE_ENV", "production")])
    rw [h1]
    simp [h2, h3, h5 "production" (by decide)]
  · obtain ⟨resp, h1, h2, h3, _, _, h5, _⟩ := healthHandler_constant_fields ResponseWriter.new
      (sampleRequest "POST" "/x") (sampleWorld [("NODE_ENV", "production")])
    rw [h1]
    simp [h2, h3, h5 "production" (by decide)]
  · obtain ⟨resp, h1, h2, h3, _, h4, _, _⟩ := healthHandler_constant_fields ResponseWriter.new
      (sampleRequest "GET" "/api/health") (sampleWorld [("PORT", "9090")])
    rw [h1]
    simp [h2, h3, h4 (by decide)]

/-! ## C8: the memory map -/

/-- C8.  For every memory-statistics sample, `healthHandler` hands one value to the
JSON encoder, and its `Memory` map has the four keys `alloc`, `total_alloc`, `sys`
and `num_gc`, each once and no other, bound to the sample's `Alloc`, `TotalAlloc`,
`Sys` and `NumGC`: the conversion `uint64(m.NumGC)` of the 32-bit count does not
change its value, and every entry is below `2 ^ 64`.  When every statistic of the
sample is zero every entry is zero, and the value is produced all the same. -/
theorem healthHandler_memory (w : ResponseWriter) (r : Request) (σ : World) :
    ∃ resp, encodedValues (healthHandler w r σ).1 = [resp] ∧
      resp.Memory.map Prod.fst = ["alloc", "total_alloc", "sys", "num_gc"] ∧
      resp.Memory.lookup "alloc" = some σ.memStats.Alloc ∧
      resp.Memory.lookup "total_alloc" = some σ.memStats.TotalAlloc ∧
      resp.Memory.lookup "sys" = some σ.memStats.Sys ∧
      resp.Memory.lookup "num_gc" = some σ.memStats.NumGC ∧
      (∀ key, key ∉ ["alloc", "total_alloc", "sys", "num_gc"] →
        resp.Memory.lookup key = none) ∧
      (∀ kv ∈ resp.Memory, kv.2 < 2 ^ 64) ∧
      (σ.memStats.Alloc = 0 ∧ σ.memStats.TotalAlloc = 0 ∧ σ.memStats.Sys = 0 ∧
          σ.memStats.NumGC = 0 →
        resp.Memory = [("alloc", 0), ("total_alloc", 0), ("sys", 0), ("num_gc", 0)]) := by
  have hgc : uint64 σ.memStats.NumGC = σ.memStats.NumGC := by
    unfold uint64
    exact Nat.mod_eq_of_lt (lt_trans σ.memStats.NumGC_lt (by norm_num))
  refine ⟨_, healthHandler_encoded w r σ, rfl, ?_, ?_, ?_, ?_, ?_, ?_, ?_⟩
  · simp [List.lookup]
  · simp [List.lookup]
  · simp [List.lookup]
  · simp [List.lookup, hgc]
  · intro key hkey
    simp only [List.mem_cons, List.mem_singleton, not_or, List.not_mem_nil, or_false] at hkey
    obtain ⟨h1, h2, h3, h4⟩ := hkey
    have b1 : (key == "alloc") = false := by simpa using h1
    have b2 : (key == "total_alloc") = false := by simpa using h2
    have b3 : (key == "sys") = false := by simpa using h3
    have b4 : (key == "num_gc") = false := by simpa using h4
    simp [List.lookup, b1, b2, b3, b4]
  · intro kv hkv
    simp only [List.mem_cons, List.mem_singleton, List.not_mem_nil, or_false] at hkv
    rcases hkv with h | h | h | h
    · rw [h]; exact σ.memStats.Alloc_lt
    · rw [h]; exact σ.memStats.TotalAlloc_lt
    · rw [h]; exact σ.memStats.Sys_lt
    · rw [h, hgc]; exact lt_trans σ.memStats.NumGC_lt (by norm_num)
  · rintro ⟨h1, h2, h3, h4⟩
    simp [uint64, h1, h2, h3, h4]

/-- C8 at concrete inputs: a sample of zeros gives a map of four zeros. -/
theorem healthHandler_memory_witness :
    (encodedValues (healthHandler ResponseWriter.new (sampleRequest "GET" "/api/health")
      { sampleWorld [] with memStats := zeroMemStats }).1).map (fun v => v.Memory) =
      [[("alloc", 0), ("total_alloc", 0), ("sys", 0), ("num_gc", 0)]] := by
  obtain ⟨resp, h1, _, _, _, _, _, _, _, h9⟩ := healthHandler_memory ResponseWriter.new
    (sampleRequest "GET" "/api/health") { sampleWorld [] with memStats := zeroMemStats }
  rw [h1]
  simp [h9 ⟨rfl, rfl, rfl, rfl⟩]

/-! ## Lemmas on the health response -/

/-- What `healthHandler` leaves on a writer whose headers were not sent. -/
theorem healthHandler_sent (w : ResponseWriter) (r : Request) (σ : World)
    (hw : w.wroteHeader = false) :
    (∃ resp, (healthHandler w r σ).1 =
      [ .headerSet "Content-Type" "application/json",
        .headerSet "Cache-Control" "no-cache, no-store, must-revalidate",
        .headerSet "Pragma" "no-cache",
        .headerSet "Expires" "0",
        .write (.json resp) ] ∧
      (healthHandler.ServeHTTP w r σ).1.body = w.body ++ [.json resp]) ∧
    (healthHandler.ServeHTTP w r σ).1.wroteHeader = true ∧
    (healthHandler.ServeHTTP w r σ).1.status = 200 ∧
    (healthHandler.ServeHTTP w r σ).1.sent.Values "Content-Type" = some ["application/json"] ∧
    (healthHandler.ServeHTTP w r σ).1.sent.Values "Cache-Control" =
      some ["no-cache, no-store, must-revalidate"] ∧
    (healthHandler.ServeHTTP w r σ).1.sent.Values "Pragma" = some ["no-cache"] ∧
    (healthHandler.ServeHTTP w r σ).1.sent.Values "Expires" = some ["0"] ∧
    (∀ key, CanonicalMIMEHeaderKey key ∉ ["Content-Type", "Cache-Control", "Pragma", "Expires"] →
      (healthHandler.ServeHTTP w r σ).1.sent.Values key = w.header.Values key) ∧
    (∀ kv ∈ securityHeaders, w.header.Values kv.1 = some [kv.2] →
      (healthHandler.ServeHTTP w r σ).1.sent.Values kv.1 = some [kv.2]) := by
  obtain ⟨c1, c2, c3, c4⟩ := canonical_healthKeys
  have hsent : ∀ key, (healthHandler.ServeHTTP w r σ).1.sent.Values key =
      ((((w.header.Set "Content-Type" "application/json").Set "Cache-Control"
        "no-cache, no-store, must-revalidate").Set "Pragma" "no-cache").Set
        "Expires" "0").Values key := by
    intro key
    simp [Handler.ServeHTTP, healthHandler_ops, exec, Op.apply, ResponseWriter.Write,
      ResponseWriter.WriteHeader, hw, bodyAllowedForStatus]
  have hother : ∀ key,
      CanonicalMIMEHeaderKey key ∉ ["Content-Type", "Cache-Control", "Pragma", "Expires"] →
      (healthHandler.ServeHTTP w r σ).1.sent.Values key = w.header.Values key := by
    intro key hkey
    simp only [List.mem_cons, List.mem_singleton, not_or, List.not_mem_nil, or_false] at hkey
    obtain ⟨h1, h2, h3, h4⟩ := hkey
    rw [hsent]
    simp [Header.Values, Header.Set, c1, c2, c3, c4, h1, h2, h3, h4]
  refine ⟨⟨_, healthHandler_ops w r σ, ?_⟩, ?_, ?_, ?_, ?_, ?_, ?_, hother, ?_⟩
  · simp [Handler.ServeHTTP, healthHandler_ops, exec, Op.apply, ResponseWriter.Write,
      ResponseWriter.WriteHeader, hw, bodyAllowedForStatus]
  · simp [Handler.ServeHTTP, healthHandler_ops, exec, Op.apply, ResponseWriter.Write,
      ResponseWriter.WriteHeader, hw, bodyAllowedForStatus]
  · simp [Handler.ServeHTTP, healthHandler_ops, exec, Op.apply, ResponseWriter.Write,
      ResponseWriter.WriteHeader, hw, bodyAllowedForStatus]
  · rw [hsent]
    simp [Header.Values, Header.Set, c1, c2, c3, c4]
  · rw [hsent]
    simp [Header.Values, Header.Set, c1, c2, c3, c4]
  · rw [hsent]
    simp [Header.Values, Header.Set, c1, c2, c3, c4]
  · rw [hsent]
    simp [Header.Values, Header.Set, c1, c2, c3, c4]
  · intro kv hkv hval
    rw [hother kv.1 (securityHeaders_not_healthKeys kv hkv)]
    exact hval

/-! ## Lemmas on the router -/

theorem toUpperASCII_GET : toUpperASCII "GET" = "GET" := by
  decide

theorem mainRouter_routes :
    mainRouter.routes =
      [ { matchers := [.routeRegexp "/api/health", .methodMatcher ["GET"]],
          handler := some healthHandler },
        { matchers := [.routeRegexp "/docs", .methodMatcher ["GET"]],
          handler := some docsHandler },
        { matchers := [.routeRegexp "/", .methodMatcher ["GET"]],
          handler := some docsHandler } ] := by
  simp [mainRouter, Router.HandleFunc, NewRouter, Route.Methods, toUpperASCII_GET]

/-- What the router of `main` does with a request, case by case. -/
theorem mainRouter_serve (w : ResponseWriter) (r : Request) (σ : World) :
    mainRouter.ServeHTTP w r σ =
      if cleanPath r.URL.Path ≠ r.URL.Path then (redirectOps r, σ)
      else if r.URL.Path = "/api/health" then
        (if r.Method = "GET" then healthHandler w r σ else methodNotAllowedHandler w r σ)
      else if r.URL.Path = "/docs" ∨ r.URL.Path = "/" then
        (if r.Method = "GET" then docsHandler w r σ else methodNotAllowedHandler w r σ)
      else NotFoundHandler w r σ := by
  unfold Router.ServeHTTP Router.Match
  rw [mainRouter_routes]
  by_cases hc : cleanPath r.URL.Path ≠ r.URL.Path
  · simp [hc]
  · simp only [hc, if_false]
    by_cases h1 : r.URL.Path = "/api/health" <;> by_cases hm : r.Method = "GET"
    · simp [Router.matchRoutes, Route.Match, Route.matchAll,
        Matcher.Match, h1, hm]
    · simp [Router.matchRoutes, Route.Match, Route.matchAll,
        Matcher.Match, h1, hm]
    · by_cases h2 : r.URL.Path = "/docs"
      · simp [Router.matchRoutes, Route.Match, Route.matchAll,
          Matcher.Match, h2, hm]
      · by_cases h3 : r.URL.Path = "/"
        · simp [Router.matchRoutes, Route.Match, Route.matchAll,
            Matcher.Match, h3, hm]
        · simp [Router.matchRoutes, Route.Match, Route.matchAll,
            Matcher.Match, h1, h2, h3, hm]
    · by_cases h2 : r.URL.Path = "/docs"
      · simp [Router.matchRoutes, Route.Match, Route.matchAll,
          Matcher.Match, h2, hm]
      · by_cases h3 : r.URL.Path = "/"
        · simp [Router.matchRoutes, Route.Match, Route.matchAll,
            Matcher.Match, h3, hm]
        · simp [Router.matchRoutes, Route.Match, Route.matchAll,
            Matcher.Match, h1, h2, h3, hm]

theorem cleanPath_routes :
    cleanPath "/api/health" = "/api/health" ∧ cleanPath "/docs" = "/docs" ∧ cleanPath "/" = "/" := by
  decide

theorem docsHTML_ne_notFound : docsHTML ≠ "404 page not found\n" := by
  decide

theorem docsHTML_ne_empty : docsHTML ≠ "" := by
  decide

theorem docsHandler_ops (w : ResponseWriter) (r : Request) (σ : World) :
    (docsHandler w r σ).1 =
      [ .headerSet "Content-Type" "text/html; charset=utf-8",
        .writeHeader 200,
        .write (.bytes docsHTML) ] := by
  rfl

theorem docsHandler_exec (w : ResponseWriter) (r : Request) (σ : World)
    (hw : w.wroteHeader = false) :
    exec w (docsHandler w r σ).1 =
      { header := w.header.Set "Content-Type" "text/html; charset=utf-8"
        wroteHeader := true
        status := 200
        sent := w.header.Set "Content-Type" "text/html; charset=utf-8"
        body := w.body ++ [.bytes docsHTML] } := by
  simp [docsHandler_ops, exec, Op.apply, ResponseWriter.Write, ResponseWriter.WriteHeader, hw,
    bodyAllowedForStatus, docsHTML_ne_empty]

/-! ## C6: the documentation page is a constant -/

/-- C6.  For every two writers, requests and process states, `docsHandler` makes
the same three calls: it sets Content-Type to text/html; charset=utf-8, sends status
200 and writes the constant `docsHTML`.  It leaves the process as it found it, so
an earlier call changes nothing for a later one.  On writers whose headers have not
been sent the response has status 200, that Content-Type, and `docsHTML` appended to
the body.  A GET request for `/docs` and one for `/` are both dispatched to it. -/
theorem docsHandler_constant (w1 w2 : ResponseWriter) (r1 r2 : Request) (σ1 σ2 : World)
    (h1 : w1.wroteHeader = false) (h2 : w2.wroteHeader = false) :
    (docsHandler w1 r1 σ1).1 =
      [ .headerSet "Content-Type" "text/html; charset=utf-8",
        .writeHeader 200,
        .write (.bytes docsHTML) ] ∧
    (docsHandler w2 r2 σ2).1 = (docsHandler w1 r1 σ1).1 ∧
    (docsHandler w1 r1 σ1).2 = σ1 ∧
    (docsHandler.ServeHTTP w1 r1 σ1).1.status = 200 ∧
    (docsHandler.ServeHTTP w1 r1 σ1).1.sent.Values "Content-Type" =
      some ["text/html; charset=utf-8"] ∧
    (docsHandler.ServeHTTP w1 r1 σ1).1.body = w1.body ++ [.bytes docsHTML] ∧
    (docsHandler.ServeHTTP w2 r2 σ2).1.status = (docsHandler.ServeHTTP w1 r1 σ1).1.status ∧
    (docsHandler.ServeHTTP w2 r2 σ2).1.sent.Values "Content-Type" =
      (docsHandler.ServeHTTP w1 r1 σ1).1.sent.Values "Content-Type" ∧
    (docsHandler.ServeHTTP w2 r2 σ2).1.body = w2.body ++ [.bytes docsHTML] ∧
    (r1.Method = "GET" → r1.URL.Path = "/docs" ∨ r1.URL.Path = "/" →
      mainRouter.ServeHTTP w1 r1 σ1 = docsHandler w1 r1 σ1) := by
  have e1 := docsHandler_exec w1 r1 σ1 h1
  have e2 := docsHandler_exec w2 r2 σ2 h2
  refine ⟨rfl, rfl, rfl, ?_, ?_, ?_, ?_, ?_, ?_, ?_⟩
  · simp [Handler.ServeHTTP, e1]
  · simp [Handler.ServeHTTP, e1, Header.Values, Header.Set]
  · simp [Handler.ServeHTTP, e1]
  · simp [Handler.ServeHTTP, e1, e2]
  · simp [Handler.ServeHTTP, e1, e2, Header.Values, Header.Set]
  · simp [Handler.ServeHTTP, e2]
  · intro hm hp
    rw [mainRouter_serve]
    rcases hp with hp | hp
    · simp [hp, hm, cleanPath_routes.2.1]
    · simp [hp, hm, cleanPath_routes.2.2]

/-- C6 at concrete inputs: a GET for `/docs` on a new writer and a DELETE for
`/anything` on a writer that already carries a header write the same page. -/
theorem docsHandler_constant_witness :
    (docsHandler.ServeHTTP ResponseWriter.new (sampleRequest "GET" "/docs")
      (sampleWorld [])).1.body = [.bytes docsHTML] ∧
    (docsHandler.ServeHTTP { ResponseWriter.new with
        header := ResponseWriter.new.header.Set "Server" "MNNR-Go" }
      (sampleRequest "DELETE" "/anything") (sampleWorld [("NODE_ENV", "production")])).1.body =
        [.bytes docsHTML] ∧
    mainRouter.ServeHTTP ResponseWriter.new (sampleRequest "GET" "/docs") (sampleWorld []) =
      docsHandler ResponseWriter.new (sampleRequest "GET" "/docs") (sampleWorld []) := by
  have h := docsHandler_constant ResponseWriter.new
    { ResponseWriter.new with header := ResponseWriter.new.header.Set "Server" "MNNR-Go" }
    (sampleRequest "GET" "/docs") (sampleRequest "DELETE" "/anything")
    (sampleWorld []) (sampleWorld [("NODE_ENV", "production")]) rfl rfl
  exact ⟨h.2.2.2.2.2.1, h.2.2.2.2.2.2.2.2.1, h.2.2.2.2.2.2.2.2.2 rfl (Or.inl rfl)⟩

/-! ## C2: the route table and what lies outside it -/

/-- C2.  The router built in `main` has three routes, in this order: path
`/api/health` with method GET to `healthHandler`, path `/docs` with method GET to
`docsHandler`, path `/` with method GET to `docsHandler`; a GET request for one of
these paths is served by that handler.  For every request whose method and path are
not one of the three pairs, the router answers with its redirect to the cleaned
path, with its method-not-allowed handler or with its not-found handler, and no
health value and no documentation page is written.  A POST for `/api/health` gets
the single call `WriteHeader(405)`: status 405, not 200, and nothing added to the
body. -/
theorem mainRouter_dispatch (w : ResponseWriter) (r : Request) (σ : World) :
    (mainRouter.routes.map (fun rt => rt.matchers) =
        [ [.routeRegexp "/api/health", .methodMatcher ["GET"]],
          [.routeRegexp "/docs", .methodMatcher ["GET"]],
          [.routeRegexp "/", .methodMatcher ["GET"]] ] ∧
      mainRouter.routes.map (fun rt => rt.handler) =
        [some healthHandler, some docsHandler, some docsHandler]) ∧
    (r.Method = "GET" → r.URL.Path = "/api/health" →
      mainRouter.ServeHTTP w r σ = healthHandler w r σ) ∧
    (r.Method = "GET" → r.URL.Path = "/docs" ∨ r.URL.Path = "/" →
      mainRouter.ServeHTTP w r σ = docsHandler w r σ) ∧
    (encodedValues (healthHandler w r σ).1 ≠ [] ∧
      Op.write (.bytes docsHTML) ∈ (docsHandler w r σ).1) ∧
    ((r.Method, r.URL.Path) ∉ [("GET", "/api/health"), ("GET", "/docs"), ("GET", "/")] →
      (mainRouter.ServeHTTP w r σ = (redirectOps r, σ) ∨
        mainRouter.ServeHTTP w r σ = methodNotAllowedHandler w r σ ∨
        mainRouter.ServeHTTP w r σ = NotFoundHandler w r σ) ∧
      encodedValues (mainRouter.ServeHTTP w r σ).1 = [] ∧
      Op.write (.bytes docsHTML) ∉ (mainRouter.ServeHTTP w r σ).1) ∧
    (r.Method = "POST" → r.URL.Path = "/api/health" →
      mainRouter.ServeHTTP w r σ = ([.writeHeader 405], σ) ∧
      (w.wroteHeader = false →
        (Handler.ServeHTTP mainRouter.ServeHTTP w r σ).1.status = 405 ∧
        (Handler.ServeHTTP mainRouter.ServeHTTP w r σ).1.status ≠ 200 ∧
        (Handler.ServeHTTP mainRouter.ServeHTTP w r σ).1.body = w.body)) := by
  refine ⟨⟨by rw [mainRouter_routes]; rfl, by rw [mainRouter_routes]; rfl⟩, ?_, ?_, ?_, ?_, ?_⟩
  · intro hm hp
    rw [mainRouter_serve]
    simp [hp, hm, cleanPath_routes.1]
  · intro hm hp
    rw [mainRouter_serve]
    rcases hp with hp | hp
    · simp [hp, hm, cleanPath_routes.2.1]
    · simp [hp, hm, cleanPath_routes.2.2]
  · constructor
    · rw [healthHandler_encoded]
      simp
    · simp [docsHandler_ops]
  · intro hout
    simp only [List.mem_cons, List.mem_singleton, Prod.mk.injEq, List.not_mem_nil, or_false,
      not_or, not_and] at hout
    obtain ⟨o1, o2, o3⟩ := hout
    have hcases : mainRouter.ServeHTTP w r σ = (redirectOps r, σ) ∨
        mainRouter.ServeHTTP w r σ = methodNotAllowedHandler w r σ ∨
        mainRouter.ServeHTTP w r σ = NotFoundHandler w r σ := by
      rw [mainRouter_serve]
      by_cases hc : cleanPath r.URL.Path ≠ r.URL.Path
      · simp [hc]
      · by_cases hm : r.Method = "GET"
        · have p1 := o1 hm
          have p2 := o2 hm
          have p3 := o3 hm
          simp [hc, p1, p2, p3]
        · simp only [hc, hm, if_false]
          split_ifs <;> simp
    refine ⟨hcases, ?_, ?_⟩
    · rcases hcases with h | h | h <;> rw [h] <;> rfl
    · rcases hcases with h | h | h <;> rw [h]
      · simp [redirectOps]
      · simp [methodNotAllowedHandler]
      · simp [NotFoundHandler, docsHTML_ne_notFound]
  · intro hm hp
    have hs : mainRouter.ServeHTTP w r σ = ([.writeHeader 405], σ) := by
      rw [mainRouter_serve]
      simp [hp, hm, cleanPath_routes.1, methodNotAllowedHandler]
    refine ⟨hs, ?_⟩
    intro hw
    simp [Handler.ServeHTTP, hs, exec, Op.apply, ResponseWriter.WriteHeader, hw]

/-- C2 at concrete inputs: POST `/api/health` on a new writer ends with status 405
and an empty body; GET `/api/healthz` is answered by the not-found handler. -/
theorem mainRouter_dispatch_witness :
    (Handler.ServeHTTP mainRouter.ServeHTTP ResponseWriter.new
      (sampleRequest "POST" "/api/health") (sampleWorld [])).1.status = 405 ∧
    (Handler.ServeHTTP mainRouter.ServeHTTP ResponseWriter.new
      (sampleRequest "POST" "/api/health") (sampleWorld [])).1.body = [] ∧
    encodedValues (mainRouter.ServeHTTP ResponseWriter.new
      (sampleRequest "GET" "/api/healthz") (sampleWorld [])).1 = [] := by
  have h := (mainRouter_dispatch ResponseWriter.new (sampleRequest "POST" "/api/health")
    (sampleWorld [])).2.2.2.2.2 rfl rfl
  have g := (mainRouter_dispatch ResponseWriter.new (sampleRequest "GET" "/api/healthz")
    (sampleWorld [])).2.2.2.2.1 (by decide)
  exact ⟨(h.2 rfl).1, (h.2 rfl).2.2, g.2.1⟩

/-! ## C10: the links of the documentation page -/

theorem docsHTML_anchorTargets :
    anchorTargets docsHTML.data =
      [ "/docs/security", "/docs/deployment", "/docs/api", "/docs/enterprise",
        "/docs/changelog", "/docs/quick-start" ] := by
  decide!

theorem docsHTML_cards :
    countPattern "<div class=\"card\">".data docsHTML.data = 6 ∧
      countPattern "<a ".data docsHTML.data = 6 := by
  decide!

theorem cleanPath_docsLinks :
    ∀ t ∈ [ "/docs/security", "/docs/deployment", "/docs/api", "/docs/enterprise",
        "/docs/changelog", "/docs/quick-start" ],
      cleanPath t = t ∧ t ≠ "/api/health" ∧ t ≠ "/docs" ∧ t ≠ "/" := by
  decide

/-- C10.  The page `docsHTML` has six cards and six anchors, with targets
`/docs/security`, `/docs/deployment`, `/docs/api`, `/docs/enterprise`,
`/docs/changelog` and `/docs/quick-start`.  None of them is the path of a route of `main`, whose paths are
`/api/health`, `/docs` and `/`, each matched as a whole.  So for every GET request
whose path is one of the targets the router runs its not-found handler, and on a
writer whose headers were not sent the status is 404 and neither a health value nor
the page is written. -/
theorem docsLinks_notFound :
    (countPattern "<div class=\"card\">".data docsHTML.data = 6 ∧
      countPattern "<a ".data docsHTML.data = 6) ∧
    anchorTargets docsHTML.data =
      [ "/docs/security", "/docs/deployment", "/docs/api", "/docs/enterprise",
        "/docs/changelog", "/docs/quick-start" ] ∧
    mainRouter.routes.map (fun rt => rt.matchers.head?) =
      [ some (.routeRegexp "/api/health"), some (.routeRegexp "/docs"),
        some (.routeRegexp "/") ] ∧
    (∀ t ∈ anchorTargets docsHTML.data, ∀ rt ∈ mainRouter.routes,
      Matcher.routeRegexp t ∉ rt.matchers) ∧
    (∀ t ∈ anchorTargets docsHTML.data, ∀ (w : ResponseWriter) (r : Request) (σ : World),
      r.Method = "GET" → r.URL.Path = t →
        mainRouter.ServeHTTP w r σ = NotFoundHandler w r σ ∧
        encodedValues (mainRouter.ServeHTTP w r σ).1 = [] ∧
        Op.write (.bytes docsHTML) ∉ (mainRouter.ServeHTTP w r σ).1 ∧
        (w.wroteHeader = false →
          (Handler.ServeHTTP mainRouter.ServeHTTP w r σ).1.status = 404 ∧
          (Handler.ServeHTTP mainRouter.ServeHTTP w r σ).1.body =
            w.body ++ [.bytes "404 page not found\n"])) := by
  refine ⟨docsHTML_cards, docsHTML_anchorTargets, by rw [mainRouter_routes]; rfl, ?_, ?_⟩
  · rw [docsHTML_anchorTargets, mainRouter_routes]
    decide
  · rw [docsHTML_anchorTargets]
    intro t ht w r σ hm hp
    obtain ⟨hc, n1, n2, n3⟩ := cleanPath_docsLinks t ht
    have hs : mainRouter.ServeHTTP w r σ = NotFoundHandler w r σ := by
      rw [mainRouter_serve]
      simp [hp, hc, n1, n2, n3]
    refine ⟨hs, by rw [hs]; rfl, ?_, ?_⟩
    · rw [hs]
      simp [NotFoundHandler, docsHTML_ne_notFound]
    · intro hw
      simp [Handler.ServeHTTP, hs, NotFoundHandler, exec, Op.apply, ResponseWriter.Write,
        ResponseWriter.WriteHeader, hw, bodyAllowedForStatus]

/-- C10 at a concrete input: GET `/docs/security`, the first link of the page, on
a new writer ends with status 404. -/
theorem docsLinks_notFound_witness :
    (Handler.ServeHTTP mainRouter.ServeHTTP ResponseWriter.new
      (sampleRequest "GET" "/docs/security") (sampleWorld [])).1.status = 404 := by
  have h := docsLinks_notFound.2.2.2.2 "/docs/security"
    (by rw [docsLinks_notFound.2.1]; decide) ResponseWriter.new
    (sampleRequest "GET" "/docs/security") (sampleWorld []) rfl rfl
  exact (h.2.2.2 rfl).1

/-! ## Lemmas on the security headers -/

theorem securityHeaders_keys_distinct :
    ∀ kv ∈ securityHeaders, ∀ kv2 ∈ securityHeaders,
      CanonicalMIMEHeaderKey kv.1 = CanonicalMIMEHeaderKey kv2.1 → kv.2 = kv2.2 := by
  decide

theorem securityOps_eq :
    securityOps =
      [ .headerSet "X-DNS-Prefetch-Control" "on",
        .headerSet "Strict-Transport-Security" "max-age=63072000; includeSubDomains; preload",
        .headerSet "X-Frame-Options" "SAMEORIGIN",
        .headerSet "X-Content-Type-Options" "nosniff",
        .headerSet "X-XSS-Protection" "1; mode=block",
        .headerSet "Referrer-Policy" "strict-origin-when-cross-origin",
        .headerSet "Permissions-Policy" "camera=(), microphone=(), geolocation=()",
        .headerSet "Server" "MNNR-Go" ] := by
  rfl

theorem securityHeadersMiddleware_eq (next : Handler) (w : ResponseWriter) (r : Request)
    (σ : World) :
    securityHeadersMiddleware next w r σ =
      (securityOps ++ (next (exec w securityOps) r σ).1, (next (exec w securityOps) r σ).2) := by
  rfl

theorem exec_append (w : ResponseWriter) (ops1 ops2 : List Op) :
    exec w (ops1 ++ ops2) = exec (exec w ops1) ops2 := by
  simp [exec, List.foldl_append]

theorem writesAny_false_keeps (op : Op)
    (h : op.writesAny (securityHeaders.map Prod.fst) = false) :
    op.keepsSecurityHeaders = true := by
  simp [Op.keepsSecurityHeaders, h]

/-- A key outside the eight names keeps its binding out of the way of each of them. -/
theorem values_of_not_written (k : String) (kv : String × String)
    (hkv : kv ∈ securityHeaders)
    (hk : (securityHeaders.map (fun kv => CanonicalMIMEHeaderKey kv.1)).contains
      (CanonicalMIMEHeaderKey k) = false) :
    CanonicalMIMEHeaderKey kv.1 ≠ CanonicalMIMEHeaderKey k := by
  intro heq
  have hmem : CanonicalMIMEHeaderKey k ∈
      securityHeaders.map (fun kv => CanonicalMIMEHeaderKey kv.1) := by
    rw [← heq]
    exact List.mem_map_of_mem (fun kv => CanonicalMIMEHeaderKey kv.1) hkv
  have : (securityHeaders.map (fun kv => CanonicalMIMEHeaderKey kv.1)).contains
      (CanonicalMIMEHeaderKey k) = true := by
    simpa using hmem
  rw [hk] at this
  cases this

theorem writesAny_names (op : Op) (k : String) (hk : op.writtenKey = some k) :
    op.writesAny (securityHeaders.map Prod.fst) =
      (securityHeaders.map (fun kv => CanonicalMIMEHeaderKey kv.1)).contains k := by
  simp [Op.writesAny, hk, List.map_map, Function.comp_def]

/-- One call that keeps the security headers preserves: the header map has the
eight, and if the headers were sent, the sent headers have the eight. -/
theorem apply_keeps (w : ResponseWriter) (op : Op)
    (hh : w.header.hasSecurityHeaders)
    (hs : w.wroteHeader = true → w.sent.hasSecurityHeaders)
    (hk : op.keepsSecurityHeaders = true) :
    (op.apply w).header.hasSecurityHeaders ∧
      ((op.apply w).wroteHeader = true → (op.apply w).sent.hasSecurityHeaders) := by
  cases op with
  | headerSet k v =>
    refine ⟨?_, hs⟩
    intro kv hkv
    by_cases hc : CanonicalMIMEHeaderKey kv.1 = CanonicalMIMEHeaderKey k
    · have hw : (Op.headerSet k v).writesAny (securityHeaders.map Prod.fst) = true := by
        rw [writesAny_names (Op.headerSet k v) (CanonicalMIMEHeaderKey k) rfl, ← hc]
        simpa using List.mem_map_of_mem (fun kv => CanonicalMIMEHeaderKey kv.1) hkv
      have hk2 : (CanonicalMIMEHeaderKey k, v) ∈
          securityHeaders.map (fun kv => (CanonicalMIMEHeaderKey kv.1, kv.2)) := by
        simpa [Op.keepsSecurityHeaders, hw] using hk
      obtain ⟨kv2, hkv2, heq⟩ := List.mem_map.mp hk2
      simp only [Prod.mk.injEq] at heq
      have hv : kv.2 = kv2.2 :=
        securityHeaders_keys_distinct kv hkv kv2 hkv2 (by rw [hc, heq.1])
      simp [Op.apply, Header.Values, Header.Set, hc, hv, heq.2]
    · have := hh kv hkv
      simpa [Op.apply, Header.Values, Header.Set, hc] using this
  | headerAdd k v =>
    refine ⟨?_, hs⟩
    intro kv hkv
    have hw : (Op.headerAdd k v).writesAny (securityHeaders.map Prod.fst) = false := by
      simpa [Op.keepsSecurityHeaders] using hk
    rw [writesAny_names (Op.headerAdd k v) (CanonicalMIMEHeaderKey k) rfl] at hw
    have hc := values_of_not_written k kv hkv hw
    have := hh kv hkv
    simpa [Op.apply, Header.Values, Header.Add, hc] using this
  | headerDel k =>
    refine ⟨?_, hs⟩
    intro kv hkv
    have hw : (Op.headerDel k).writesAny (securityHeaders.map Prod.fst) = false := by
      simpa [Op.keepsSecurityHeaders] using hk
    rw [writesAny_names (Op.headerDel k) (CanonicalMIMEHeaderKey k) rfl] at hw
    have hc := values_of_not_written k kv hkv hw
    have := hh kv hkv
    simpa [Op.apply, Header.Values, Header.Del, hc] using this
  | writeHeader code =>
    simp only [Op.apply, ResponseWriter.WriteHeader]
    split_ifs with h1 h2
    · exact ⟨hh, hs⟩
    · exact ⟨hh, hs⟩
    · exact ⟨hh, fun _ => hh⟩
  | write data =>
    simp only [Op.apply, ResponseWriter.Write, ResponseWriter.WriteHeader]
    split_ifs <;> first | exact ⟨hh, hs⟩ | exact ⟨hh, fun _ => hh⟩

theorem exec_keeps (ops : List Op) (w : ResponseWriter)
    (hh : w.header.hasSecurityHeaders)
    (hs : w.wroteHeader = true → w.sent.hasSecurityHeaders)
    (hk : ∀ op ∈ ops, op.keepsSecurityHeaders = true) :
    (exec w ops).header.hasSecurityHeaders ∧
      ((exec w ops).wroteHeader = true → (exec w ops).sent.hasSecurityHeaders) := by
  induction ops generalizing w with
  | nil => exact ⟨hh, hs⟩
  | cons op ops ih =>
    have h1 := apply_keeps w op hh hs (hk op (List.mem_cons_self op ops))
    exact ih (op.apply w) h1.1 h1.2 (fun o ho => hk o (List.mem_cons_of_mem op ho))

theorem finishRequest_sent (w : ResponseWriter)
    (hh : w.header.hasSecurityHeaders)
    (hs : w.wroteHeader = true → w.sent.hasSecurityHeaders) :
    (finishRequest w).sent.hasSecurityHeaders := by
  unfold finishRequest ResponseWriter.WriteHeader
  split_ifs with h1 h2
  · exact hs h1
  · omega
  · exact hh

/-- After the eight calls of the middleware the header map has the eight headers,
and what was sent before is as it was. -/
theorem exec_securityOps (w : ResponseWriter) :
    (exec w securityOps).header.hasSecurityHeaders ∧
      (exec w securityOps).wroteHeader = w.wroteHeader ∧
      (exec w securityOps).sent = w.sent ∧
      (exec w securityOps).status = w.status ∧
      (exec w securityOps).body = w.body := by
  refine ⟨?_, rfl, rfl, rfl, rfl⟩
  intro kv hkv
  have hk := hkv
  simp only [securityHeaders, List.mem_cons, List.mem_singleton, List.not_mem_nil,
    or_false] at hk
  rcases hk with h | h | h | h | h | h | h | h <;> subst h <;>
    simp [securityOps_eq, exec, Op.apply, Header.Values, Header.Set] <;> decide

theorem writesAny_headerSet_of_key (k v : String)
    (hk : (securityHeaders.map (fun kv => CanonicalMIMEHeaderKey kv.1)).contains
      (CanonicalMIMEHeaderKey k) = false) :
    (Op.headerSet k v).writesAny (securityHeaders.map Prod.fst) = false := by
  rw [writesAny_names (Op.headerSet k v) (CanonicalMIMEHeaderKey k) rfl, hk]

theorem healthHandler_writes_none (w : ResponseWriter) (r : Request) (σ : World) :
    ∀ op ∈ (healthHandler w r σ).1, op.writesAny (securityHeaders.map Prod.fst) = false := by
  intro op hop
  rw [healthHandler_ops] at hop
  simp only [List.mem_cons, List.mem_singleton, List.not_mem_nil, or_false] at hop
  rcases hop with h | h | h | h | h <;> subst h
  · exact writesAny_headerSet_of_key _ _ (by decide)
  · exact writesAny_headerSet_of_key _ _ (by decide)
  · exact writesAny_headerSet_of_key _ _ (by decide)
  · exact writesAny_headerSet_of_key _ _ (by decide)
  · rfl

theorem docsHandler_writes_none (w : ResponseWriter) (r : Request) (σ : World) :
    ∀ op ∈ (docsHandler w r σ).1, op.writesAny (securityHeaders.map Prod.fst) = false := by
  intro op hop
  rw [docsHandler_ops] at hop
  simp only [List.mem_cons, List.mem_singleton, List.not_mem_nil, or_false] at hop
  rcases hop with h | h | h <;> subst h
  · exact writesAny_headerSet_of_key _ _ (by decide)
  · rfl
  · rfl

theorem redirect_writes_none (r : Request) :
    ∀ op ∈ redirectOps r, op.writesAny (securityHeaders.map Prod.fst) = false := by
  intro op hop
  simp only [redirectOps, List.mem_cons, List.mem_singleton, List.not_mem_nil, or_false] at hop
  rcases hop with h | h <;> subst h
  · exact writesAny_headerSet_of_key _ _ (by decide)
  · rfl

theorem methodNotAllowed_writes_none (w : ResponseWriter) (r : Request) (σ : World) :
    ∀ op ∈ (methodNotAllowedHandler w r σ).1,
      op.writesAny (securityHeaders.map Prod.fst) = false := by
  intro op hop
  simp only [methodNotAllowedHandler, List.mem_singleton] at hop
  subst hop
  rfl

theorem notFound_keeps (w : ResponseWriter) (r : Request) (σ : World) :
    ∀ op ∈ (NotFoundHandler w r σ).1, op.keepsSecurityHeaders = true := by
  intro op hop
  simp only [NotFoundHandler, List.mem_cons, List.mem_singleton, List.not_mem_nil,
    or_false] at hop
  rcases hop with h | h | h | h | h <;> subst h <;> decide

/-- Every call the router of `main` makes keeps the security headers. -/
theorem mainRouter_keeps (w : ResponseWriter) (r : Request) (σ : World) :
    ∀ op ∈ (mainRouter.ServeHTTP w r σ).1, op.keepsSecurityHeaders = true := by
  rw [mainRouter_serve]
  split_ifs
  · exact fun op hop => writesAny_false_keeps op (redirect_writes_none r op hop)
  · exact fun op hop => writesAny_false_keeps op (healthHandler_writes_none w r σ op hop)
  · exact fun op hop => writesAny_false_keeps op (methodNotAllowed_writes_none w r σ op hop)
  · exact fun op hop => writesAny_false_keeps op (docsHandler_writes_none w r σ op hop)
  · exact fun op hop => writesAny_false_keeps op (methodNotAllowed_writes_none w r σ op hop)
  · exact notFound_keeps w r σ

/-- The middleware around an inner handler whose calls keep the security headers:
the headers sent with the response have the eight. -/
theorem securityHeadersMiddleware_sent (next : Handler) (w : ResponseWriter) (r : Request)
    (σ : World) (hw : w.wroteHeader = false)
    (hk : ∀ op ∈ (next (exec w securityOps) r σ).1, op.keepsSecurityHeaders = true) :
    (finishRequest
      (Handler.ServeHTTP (securityHeadersMiddleware next) w r σ).1).sent.hasSecurityHeaders := by
  obtain ⟨h1, h2, _⟩ := exec_securityOps w
  have h3 := exec_keeps (next (exec w securityOps) r σ).1 (exec w securityOps) h1
    (by rw [h2, hw]; intro h; cases h) hk
  simp only [Handler.ServeHTTP, securityHeadersMiddleware_eq, exec_append]
  exact finishRequest_sent _ h3.1 h3.2

/-! ## C1: the security headers -/

/-- C1, amended.  For every inner handler, writer, request and process,
`securityHeadersMiddleware` makes its eight `Header().Set` calls, one per name of
the table, and only then runs the inner handler, on the writer that already holds
the eight headers with the values of the table.  On a writer whose headers were not
sent, whenever the inner handler writes none of the eight names, the headers sent
with the response hold all eight with exactly those values.  `healthHandler`,
`docsHandler`, the router's redirect and its method-not-allowed handler write none
of the eight names; and for the router of `main` as inner handler the headers sent
hold all eight for every request, whichever way it is dispatched. -/
theorem securityHeaders_on_response (next : Handler) (w : ResponseWriter) (r : Request)
    (σ : World) (hw : w.wroteHeader = false) :
    securityHeadersMiddleware next w r σ =
      (securityHeaders.map (fun kv => Op.headerSet kv.1 kv.2) ++
          (next (exec w (securityHeaders.map (fun kv => Op.headerSet kv.1 kv.2))) r σ).1,
        (next (exec w (securityHeaders.map (fun kv => Op.headerSet kv.1 kv.2))) r σ).2) ∧
    (∀ kv ∈ securityHeaders,
      (exec w (securityHeaders.map (fun kv => Op.headerSet kv.1 kv.2))).header.Values kv.1 =
        some [kv.2]) ∧
    (exec w (securityHeaders.map (fun kv => Op.headerSet kv.1 kv.2))).wroteHeader = false ∧
    ((∀ op ∈ (next (exec w (securityHeaders.map (fun kv => Op.headerSet kv.1 kv.2))) r σ).1,
        op.writesAny (securityHeaders.map Prod.fst) = false) →
      ∀ kv ∈ securityHeaders,
        (finishRequest (Handler.ServeHTTP (securityHeadersMiddleware next) w r σ).1).sent.Values
          kv.1 = some [kv.2]) ∧
    (∀ (w2 : ResponseWriter) (r2 : Request) (σ2 : World),
      (∀ op ∈ (healthHandler w2 r2 σ2).1, op.writesAny (securityHeaders.map Prod.fst) = false) ∧
      (∀ op ∈ (docsHandler w2 r2 σ2).1, op.writesAny (securityHeaders.map Prod.fst) = false) ∧
      (∀ op ∈ redirectOps r2, op.writesAny (securityHeaders.map Prod.fst) = false) ∧
      (∀ op ∈ (methodNotAllowedHandler w2 r2 σ2).1,
        op.writesAny (securityHeaders.map Prod.fst) = false)) ∧
    (∀ kv ∈ securityHeaders,
      (finishRequest (Handler.ServeHTTP (securityHeadersMiddleware mainRouter.ServeHTTP)
        w r σ).1).sent.Values kv.1 = some [kv.2]) := by
  refine ⟨rfl, (exec_securityOps w).1, ?_, ?_, ?_, ?_⟩
  · exact (exec_securityOps w).2.1.trans hw
  · intro hnone
    exact securityHeadersMiddleware_sent next w r σ hw
      (fun op hop => writesAny_false_keeps op (hnone op hop))
  · intro w2 r2 σ2
    exact ⟨healthHandler_writes_none w2 r2 σ2, docsHandler_writes_none w2 r2 σ2,
      redirect_writes_none r2, methodNotAllowed_writes_none w2 r2 σ2⟩
  · exact securityHeadersMiddleware_sent mainRouter.ServeHTTP w r σ hw
      (mainRouter_keeps (exec w securityOps) r σ)

/-- C1 at a concrete input: a GET for `/api/health` through the middleware and the
router, on a new writer, is sent with Server = MNNR-Go and X-Frame-Options =
SAMEORIGIN. -/
theorem securityHeaders_on_response_witness :
    ResponseWriter.new.wroteHeader = false ∧
    (finishRequest (Handler.ServeHTTP (securityHeadersMiddleware mainRouter.ServeHTTP)
      ResponseWriter.new (sampleRequest "GET" "/api/health") (sampleWorld [])).1).sent.Values
        "Server" = some ["MNNR-Go"] ∧
    (finishRequest (Handler.ServeHTTP (securityHeadersMiddleware mainRouter.ServeHTTP)
      ResponseWriter.new (sampleRequest "GET" "/api/health") (sampleWorld [])).1).sent.Values
        "X-Frame-Options" = some ["SAMEORIGIN"] := by
  have h := (securityHeaders_on_response mainRouter.ServeHTTP ResponseWriter.new
    (sampleRequest "GET" "/api/health") (sampleWorld []) rfl).2.2.2.2.2
  exact ⟨rfl, h ("Server", "MNNR-Go") (by decide), h ("X-Frame-Options", "SAMEORIGIN") (by decide)⟩

/-- C1 as stated fails for a request that matches no route: for GET `/nope` the
router runs `http.NotFoundHandler()`, and `http.Error` sets `X-Content-Type-Options`,
one of the eight names (to the same value, `nosniff`). -/
theorem notFound_writes_security_name :
    mainRouter.ServeHTTP (exec ResponseWriter.new securityOps)
        (sampleRequest "GET" "/nope") (sampleWorld []) =
      NotFoundHandler (exec ResponseWriter.new securityOps) (sampleRequest "GET" "/nope")
        (sampleWorld []) ∧
    Op.headerSet "X-Content-Type-Options" "nosniff" ∈
      (mainRouter.ServeHTTP (exec ResponseWriter.new securityOps)
        (sampleRequest "GET" "/nope") (sampleWorld [])).1 ∧
    (Op.headerSet "X-Content-Type-Options" "nosniff").writesAny
      (securityHeaders.map Prod.fst) = true ∧
    ¬ (∀ op ∈ (mainRouter.ServeHTTP (exec ResponseWriter.new securityOps)
        (sampleRequest "GET" "/nope") (sampleWorld [])).1,
      op.writesAny (securityHeaders.map Prod.fst) = false) := by
  have hs : mainRouter.ServeHTTP (exec ResponseWriter.new securityOps)
      (sampleRequest "GET" "/nope") (sampleWorld []) =
      NotFoundHandler (exec ResponseWriter.new securityOps) (sampleRequest "GET" "/nope")
        (sampleWorld []) := by
    rw [mainRouter_serve]
    have hc : cleanPath "/nope" = "/nope" := by decide
    simp [sampleRequest, hc]
  have hmem : Op.headerSet "X-Content-Type-Options" "nosniff" ∈
      (mainRouter.ServeHTTP (exec ResponseWriter.new securityOps)
        (sampleRequest "GET" "/nope") (sampleWorld [])).1 := by
    rw [hs]
    simp [NotFoundHandler]
  have hwr : (Op.headerSet "X-Content-Type-Options" "nosniff").writesAny
      (securityHeaders.map Prod.fst) = true := by
    decide
  refine ⟨hs, hmem, hwr, ?_⟩
  intro hall
  have := hall _ hmem
  rw [hwr] at this
  cases this

/-! ## C9: composition order and the request logger -/

theorem mainRouter_world (w : ResponseWriter) (r : Request) (σ : World) :
    (mainRouter.ServeHTTP w r σ).2 = σ ∨
      (mainRouter.ServeHTTP w r σ).2 = { σ with reads := σ.reads + 2 } := by
  rw [mainRouter_serve]
  split_ifs
  · exact Or.inl rfl
  · exact Or.inr (healthHandler_world w r σ)
  · exact Or.inl rfl
  · exact Or.inl rfl
  · exact Or.inl rfl
  · exact Or.inl rfl

theorem loggingMiddleware_eq (next : Handler) (w : ResponseWriter) (r : Request) (σ : World) :
    loggingMiddleware next w r σ =
      ((next w r σ.Now.2).1,
        ((next w r σ.Now.2).2.Since σ.Now.1).2.Printf "%s %s %s %v"
          [.str r.Method, .str r.RequestURI, .str r.RemoteAddr,
            .duration ((next w r σ.Now.2).2.Since σ.Now.1).1]) := by
  rfl

/-- C9.  The handler `main` serves is `cors(loggingMiddleware(
securityHeadersMiddleware(router)))`: the cross-origin wrapper outermost, then the
logger, then the security headers, then the router.  For every inner handler,
writer, request and process, `loggingMiddleware` reads the clock, runs the inner
handler once (its calls on the writer are exactly the inner handler's, so the
response is the inner handler's), and afterwards appends one log entry with format
`%s %s %s %v` and arguments method, request URI, remote address and the time from
its first clock reading to the reading taken after the inner handler returned.
With the security middleware and the router of `main` inside, the inner chain logs
nothing and takes its own clock readings between those two, so the log grows by
that one entry and the duration spans the whole inner chain; for GET `/api/health`
the two readings are three apart, with the handler's two readings between them. -/
theorem loggingMiddleware_spec (corsHandler : CorsOptions → Handler → Handler)
    (next : Handler) (w : ResponseWriter) (r : Request) (σ : World) :
    (mainHandler corsHandler =
        corsHandler mainCorsOptions
          (loggingMiddleware (securityHeadersMiddleware mainRouter.ServeHTTP)) ∧
      (main corsHandler σ).1.Handler = mainHandler corsHandler) ∧
    (loggingMiddleware next w r σ).1 = (next w r { σ with reads := σ.reads + 1 }).1 ∧
    (Handler.ServeHTTP (loggingMiddleware next) w r σ).1 =
      (Handler.ServeHTTP next w r { σ with reads := σ.reads + 1 }).1 ∧
    (loggingMiddleware next w r σ).2.log =
      (next w r { σ with reads := σ.reads + 1 }).2.log ++
        [ { format := "%s %s %s %v"
            args :=
              [ .str r.Method, .str r.RequestURI, .str r.RemoteAddr,
                .duration (subMono
                  ((next w r { σ with reads := σ.reads + 1 }).2.clock
                    (next w r { σ with reads := σ.reads + 1 }).2.reads).mono
                  (σ.clock σ.reads).mono) ] } ] ∧
    (∃ n, σ.reads + 1 ≤ n ∧
      (loggingMiddleware (securityHeadersMiddleware mainRouter.ServeHTTP) w r σ).2 =
        { σ with
          reads := n + 1
          log := σ.log ++
            [ { format := "%s %s %s %v"
                args :=
                  [ .str r.Method, .str r.RequestURI, .str r.RemoteAddr,
                    .duration (subMono (σ.clock n).mono (σ.clock σ.reads).mono) ] } ] }) ∧
    (r.Method = "GET" → r.URL.Path = "/api/health" →
      (∃ resp, encodedValues
          (loggingMiddleware (securityHeadersMiddleware mainRouter.ServeHTTP) w r σ).1 = [resp] ∧
        resp.Timestamp = (σ.clock (σ.reads + 1)).utcRFC3339 ∧
        resp.Uptime = Seconds (subMono (σ.clock (σ.reads + 2)).mono σ.startTime.mono)) ∧
      (loggingMiddleware (securityHeadersMiddleware mainRouter.ServeHTTP) w r σ).2.log =
        σ.log ++
          [ { format := "%s %s %s %v"
              args :=
                [ .str r.Method, .str r.RequestURI, .str r.RemoteAddr,
                  .duration (subMono (σ.clock (σ.reads + 3)).mono (σ.clock σ.reads).mono) ] } ]) := by
  refine ⟨⟨rfl, rfl⟩, rfl, rfl, rfl, ?_, ?_⟩
  · rw [loggingMiddleware_eq, securityHeadersMiddleware_eq]
    rcases mainRouter_world (exec w securityOps) r σ.Now.2 with h | h
    · exact ⟨σ.reads + 1, le_refl _, by rw [h]; rfl⟩
    · exact ⟨σ.reads + 3, by omega, by rw [h]; rfl⟩
  · intro hm hp
    have hs : mainRouter.ServeHTTP (exec w securityOps) r σ.Now.2 =
        healthHandler (exec w securityOps) r σ.Now.2 := by
      rw [mainRouter_serve]
      simp [hp, hm, cleanPath_routes.1]
    rw [loggingMiddleware_eq, securityHeadersMiddleware_eq, hs]
    exact ⟨⟨_, rfl, rfl, rfl⟩, rfl⟩

/-- C9 at a concrete input: a GET for `/api/health` through the logger, the
security middleware and the router of `main`, with the sample clock, which advances
by a tenth of a second per reading, logs one entry with a duration of 300000000
nanoseconds. -/
theorem loggingMiddleware_spec_witness :
    (loggingMiddleware (securityHeadersMiddleware mainRouter.ServeHTTP) ResponseWriter.new
      (sampleRequest "GET" "/api/health") (sampleWorld [])).2.log =
      [ { format := "%s %s %s %v"
          args :=
            [ .str "GET", .str "/api/health", .str "127.0.0.1:50000",
              .duration 300000000 ] } ] := by
  have h := (loggingMiddleware_spec (fun _ h => h)
    (securityHeadersMiddleware mainRouter.ServeHTTP) ResponseWriter.new
    (sampleRequest "GET" "/api/health") (sampleWorld [])).2.2.2.2.2 rfl rfl
  rw [h.2]
  decide

/-! ## Lemmas on float64 rounding and durations -/

theorem floor_le_roundNearestEven (x : ℚ) : ⌊x⌋ ≤ roundNearestEven x := by
  unfold roundNearestEven
  simp only
  split_ifs <;> omega

theorem roundNearestEven_le_floor_add_one (x : ℚ) : roundNearestEven x ≤ ⌊x⌋ + 1 := by
  unfold roundNearestEven
  simp only
  split_ifs <;> omega

theorem roundNearestEven_intCast (n : ℤ) : roundNearestEven (n : ℚ) = n := by
  unfold roundNearestEven
  simp

theorem roundNearestEven_mono {x y : ℚ} (h : x ≤ y) : roundNearestEven x ≤ roundNearestEven y := by
  have hf : ⌊x⌋ ≤ ⌊y⌋ := Int.floor_mono h
  rcases lt_or_eq_of_le hf with hlt | heq
  · calc roundNearestEven x ≤ ⌊x⌋ + 1 := roundNearestEven_le_floor_add_one x
      _ ≤ ⌊y⌋ := hlt
      _ ≤ roundNearestEven y := floor_le_roundNearestEven y
  · have hr : x - ⌊x⌋ ≤ y - ⌊y⌋ := by
      rw [heq]; linarith
    unfold roundNearestEven
    simp only
    rw [heq] at hr ⊢
    split_ifs <;> first | omega | (exfalso; linarith)

theorem two_zpow_pos (e : ℤ) : (0 : ℚ) < (2 : ℚ) ^ e := zpow_pos (by norm_num) e

/-- Rounding does not cross a multiple of the spacing from below. -/
theorem roundPos_le_of_le (x : ℚ) (m : ℤ)
    (h : x ≤ m * (2 : ℚ) ^ (max (Int.log 2 x) (-1022) - 52)) :
    roundPos x ≤ m * (2 : ℚ) ^ (max (Int.log 2 x) (-1022) - 52) := by
  have hq := two_zpow_pos (max (Int.log 2 x) (-1022) - 52)
  unfold roundPos
  simp only
  have h1 : x / (2 : ℚ) ^ (max (Int.log 2 x) (-1022) - 52) ≤ (m : ℚ) := by
    rw [div_le_iff₀ hq]; exact h
  have h2 := roundNearestEven_mono h1
  rw [roundNearestEven_intCast] at h2
  have h3 : ((roundNearestEven (x / (2 : ℚ) ^ (max (Int.log 2 x) (-1022) - 52)) : ℤ) : ℚ) ≤ (m : ℚ) := by
    exact_mod_cast h2
  exact mul_le_mul_of_nonneg_right h3 (le_of_lt hq)

/-- Rounding does not cross a multiple of the spacing from above. -/
theorem le_roundPos_of_le (x : ℚ) (m : ℤ)
    (h : m * (2 : ℚ) ^ (max (Int.log 2 x) (-1022) - 52) ≤ x) :
    m * (2 : ℚ) ^ (max (Int.log 2 x) (-1022) - 52) ≤ roundPos x := by
  have hq := two_zpow_pos (max (Int.log 2 x) (-1022) - 52)
  unfold roundPos
  simp only
  have h1 : (m : ℚ) ≤ x / (2 : ℚ) ^ (max (Int.log 2 x) (-1022) - 52) := by
    rw [le_div_iff₀ hq]; exact h
  have h2 := roundNearestEven_mono h1
  rw [roundNearestEven_intCast] at h2
  have h3 : (m : ℚ) ≤ ((roundNearestEven (x / (2 : ℚ) ^ (max (Int.log 2 x) (-1022) - 52)) : ℤ) : ℚ) := by
    exact_mod_cast h2
  exact mul_le_mul_of_nonneg_right h3 (le_of_lt hq)

/-- A power of two at or above the spacing is a multiple of the spacing. -/
theorem zpow_eq_mul_spacing (t e : ℤ) (h : e - 52 ≤ t) :
    (2 : ℚ) ^ t = (((2 : ℤ) ^ (t - (e - 52)).toNat : ℤ) : ℚ) * (2 : ℚ) ^ (e - 52) := by
  have hk : ((t - (e - 52)).toNat : ℤ) = t - (e - 52) := Int.toNat_of_nonneg (by omega)
  push_cast
  rw [← zpow_natCast, hk, ← zpow_add₀ (by norm_num : (2 : ℚ) ≠ 0)]
  congr 1
  ring

theorem roundPos_nonneg (x : ℚ) (hx : 0 < x) : 0 ≤ roundPos x := by
  have h := le_roundPos_of_le x 0 (by simpa using le_of_lt hx)
  simpa using h

theorem roundPos_mono {x y : ℚ} (hx : 0 < x) (hxy : x ≤ y) : roundPos x ≤ roundPos y := by
  have hy : 0 < y := lt_of_lt_of_le hx hxy
  have hlog : Int.log 2 x ≤ Int.log 2 y := Int.log_mono_right hx hxy
  have he : max (Int.log 2 x) (-1022) ≤ max (Int.log 2 y) (-1022) := max_le_max hlog (le_refl _)
  rcases lt_or_eq_of_le he with hlt | heq
  · -- different binades: a power of two lies between
    have hey : max (Int.log 2 y) (-1022) = Int.log 2 y := by
      rcases le_total (Int.log 2 y) (-1022) with h | h
      · rw [max_eq_right h] at hlt
        have := le_max_right (Int.log 2 x) (-1022)
        omega
      · exact max_eq_left h
    have hpy : (2 : ℚ) ^ (Int.log 2 y) ≤ y := by
      have := Int.zpow_log_le_self (b := 2) (by norm_num) hy
      simpa using this
    have hpx : x ≤ (2 : ℚ) ^ (Int.log 2 y) := by
      have h1 : x < (2 : ℚ) ^ (Int.log 2 x + 1) := by
        have := Int.lt_zpow_succ_log_self (b := 2) (by norm_num) x
        simpa using this
      have h2 : (2 : ℚ) ^ (Int.log 2 x + 1) ≤ (2 : ℚ) ^ (Int.log 2 y) := by
        apply zpow_le_zpow_right₀ (by norm_num)
        have := le_max_left (Int.log 2 x) (-1022)
        omega
      exact le_of_lt (lt_of_lt_of_le h1 h2)
    have hmx := zpow_eq_mul_spacing (Int.log 2 y) (max (Int.log 2 x) (-1022)) (by omega)
    have hmy := zpow_eq_mul_spacing (Int.log 2 y) (max (Int.log 2 y) (-1022)) (by omega)
    have h3 := roundPos_le_of_le x _ (by rw [← hmx]; exact hpx)
    have h4 := le_roundPos_of_le y _ (by rw [← hmy]; exact hpy)
    rw [← hmx] at h3
    rw [← hmy] at h4
    exact le_trans h3 h4
  · unfold roundPos
    simp only
    rw [heq]
    have hq := two_zpow_pos (max (Int.log 2 y) (-1022) - 52)
    have h1 : x / (2 : ℚ) ^ (max (Int.log 2 y) (-1022) - 52) ≤
        y / (2 : ℚ) ^ (max (Int.log 2 y) (-1022) - 52) :=
      div_le_div_of_nonneg_right hxy (le_of_lt hq)
    have h2 := roundNearestEven_mono h1
    have h3 : ((roundNearestEven (x / (2 : ℚ) ^ (max (Int.log 2 y) (-1022) - 52)) : ℤ) : ℚ) ≤
        ((roundNearestEven (y / (2 : ℚ) ^ (max (Int.log 2 y) (-1022) - 52)) : ℤ) : ℚ) := by
      exact_mod_cast h2
    exact mul_le_mul_of_nonneg_right h3 (le_of_lt hq)

/-- Positive integers below `2 ^ 53` are float64 values. -/
theorem roundPos_intCast (n : ℤ) (h0 : 0 < n) (h : n < 2 ^ 53) : roundPos (n : ℚ) = n := by
  have hpos : (0 : ℚ) < (n : ℚ) := by exact_mod_cast h0
  have hlog0 : 0 ≤ Int.log 2 (n : ℚ) := by
    rw [← Int.zpow_le_iff_le_log (by norm_num) hpos]
    have : (1 : ℚ) ≤ (n : ℚ) := by exact_mod_cast h0
    simpa using this
  have hlog1 : Int.log 2 (n : ℚ) < 53 := by
    rw [← Int.lt_zpow_iff_log_lt (by norm_num) hpos]
    have h53 : ((2 : ℤ) ^ 53 : ℤ) = 9007199254740992 := by norm_num
    rw [h53] at h
    have : (n : ℚ) < 9007199254740992 := by exact_mod_cast h
    norm_num
    exact this
  have he : max (Int.log 2 (n : ℚ)) (-1022) = Int.log 2 (n : ℚ) := max_eq_left (by omega)
  have hj : ((52 - Int.log 2 (n : ℚ)).toNat : ℤ) = 52 - Int.log 2 (n : ℚ) :=
    Int.toNat_of_nonneg (by omega)
  have hn : (n : ℚ) = ((n * (2 : ℤ) ^ (52 - Int.log 2 (n : ℚ)).toNat : ℤ) : ℚ) *
      (2 : ℚ) ^ (max (Int.log 2 (n : ℚ)) (-1022) - 52) := by
    rw [he]
    push_cast
    rw [← zpow_natCast, hj, mul_assoc, ← zpow_add₀ (by norm_num : (2 : ℚ) ≠ 0)]
    have : 52 - Int.log 2 (n : ℚ) + (Int.log 2 (n : ℚ) - 52) = 0 := by ring
    rw [this]
    simp
  have h1 := roundPos_le_of_le (n : ℚ) _ (le_of_eq hn)
  have h2 := le_roundPos_of_le (n : ℚ) _ (le_of_eq hn.symm)
  rw [← hn] at h1 h2
  exact le_antisymm h1 h2

theorem roundF64_zero : roundF64 0 = 0 := by
  simp [roundF64]

/-- Integers of magnitude below `2 ^ 53` are float64 values. -/
theorem roundF64_intCast (n : ℤ) (hlo : -2 ^ 53 < n) (hhi : n < 2 ^ 53) :
    roundF64 (n : ℚ) = n := by
  unfold roundF64
  rcases lt_trichotomy n 0 with hn | hn | hn
  · have h1 : ¬ ((n : ℚ) = 0) := by
      have : (n : ℚ) < 0 := by exact_mod_cast hn
      exact ne_of_lt this
    have h2 : ¬ ((0 : ℚ) < (n : ℚ)) := by
      have : (n : ℚ) < 0 := by exact_mod_cast hn
      exact not_lt.mpr (le_of_lt this)
    rw [if_neg h1, if_neg h2]
    have h3 := roundPos_intCast (-n) (by omega) (by omega)
    have h4 : -(n : ℚ) = ((-n : ℤ) : ℚ) := by push_cast; ring
    rw [h4, h3]
    push_cast
    ring
  · subst hn
    simp
  · have h1 : ¬ ((n : ℚ) = 0) := by
      have : (0 : ℚ) < (n : ℚ) := by exact_mod_cast hn
      exact ne_of_gt this
    have h2 : (0 : ℚ) < (n : ℚ) := by exact_mod_cast hn
    rw [if_neg h1, if_pos h2]
    exact roundPos_intCast n hn hhi

/-- Float64 rounding is monotone. -/
theorem roundF64_mono {x y : ℚ} (h : x ≤ y) : roundF64 x ≤ roundF64 y := by
  unfold roundF64
  rcases lt_trichotomy x 0 with hx | hx | hx
  · rw [if_neg (ne_of_lt hx), if_neg (not_lt.mpr (le_of_lt hx))]
    have hnx : 0 ≤ roundPos (-x) := roundPos_nonneg (-x) (by linarith)
    rcases lt_trichotomy y 0 with hy | hy | hy
    · rw [if_neg (ne_of_lt hy), if_neg (not_lt.mpr (le_of_lt hy))]
      have := roundPos_mono (x := -y) (y := -x) (by linarith) (by linarith)
      linarith
    · rw [if_pos hy]
      linarith
    · rw [if_neg (ne_of_gt hy), if_pos hy]
      have := roundPos_nonneg y hy
      linarith
  · subst hx
    rw [if_pos rfl]
    rcases lt_or_eq_of_le h with hy | hy
    · rw [if_neg (ne_of_gt hy), if_pos hy]
      exact roundPos_nonneg y hy
    · rw [if_pos hy.symm]
  · have hy : 0 < y := lt_of_lt_of_le hx h
    rw [if_neg (ne_of_gt hx), if_pos hx, if_neg (ne_of_gt hy), if_pos hy]
    exact roundPos_mono hx h

/-- Truncated division by a second: quotient and remainder. -/
theorem tdiv_tmod_second (d : Int) :
    d = 1000000000 * d.tdiv 1000000000 + d.tmod 1000000000 ∧
      -1000000000 < d.tmod 1000000000 ∧ d.tmod 1000000000 < 1000000000 ∧
      (0 ≤ d → 0 ≤ d.tmod 1000000000) ∧ (d ≤ 0 → d.tmod 1000000000 ≤ 0) := by
  have hS : (0 : Int) < 1000000000 := by decide
  have e1 := Int.tdiv_add_tmod d 1000000000
  have e2 := Int.tdiv_add_tmod (-d) 1000000000
  rw [Int.neg_tdiv] at e2
  refine ⟨e1.symm, ?_, Int.tmod_lt_of_pos d hS, Int.tmod_nonneg 1000000000, ?_⟩
  · have h := Int.tmod_lt_of_pos (-d) hS
    omega
  · intro hd
    have h := Int.tmod_nonneg (a := -d) 1000000000 (by omega)
    omega

/-- The fraction `float64(nsec)/1e9` of `Duration.Seconds` lies between -1 and 1 and
has the sign of the remainder. -/
theorem fraction_bounds (nsec : Int) (hlo : -1000000000 < nsec) (hhi : nsec < 1000000000) :
    -1 ≤ roundF64 (roundF64 (nsec : ℚ) / 1000000000) ∧
      roundF64 (roundF64 (nsec : ℚ) / 1000000000) ≤ 1 ∧
      (0 ≤ nsec → 0 ≤ roundF64 (roundF64 (nsec : ℚ) / 1000000000)) ∧
      (nsec ≤ 0 → roundF64 (roundF64 (nsec : ℚ) / 1000000000) ≤ 0) := by
  have hn : roundF64 (nsec : ℚ) = nsec := roundF64_intCast nsec (by omega) (by omega)
  rw [hn]
  have h1 : roundF64 ((1 : ℤ) : ℚ) = ((1 : ℤ) : ℚ) := roundF64_intCast 1 (by norm_num) (by norm_num)
  have hm1 : roundF64 ((-1 : ℤ) : ℚ) = ((-1 : ℤ) : ℚ) :=
    roundF64_intCast (-1) (by norm_num) (by norm_num)
  have hq1 : (nsec : ℚ) / 1000000000 ≤ ((1 : ℤ) : ℚ) := by
    rw [div_le_iff₀ (by norm_num)]
    have : (nsec : ℚ) ≤ ((1000000000 : ℤ) : ℚ) := by exact_mod_cast (by omega : nsec ≤ 1000000000)
    push_cast at this ⊢
    linarith
  have hq2 : ((-1 : ℤ) : ℚ) ≤ (nsec : ℚ) / 1000000000 := by
    rw [le_div_iff₀ (by norm_num)]
    have : ((-1000000000 : ℤ) : ℚ) ≤ (nsec : ℚ) := by exact_mod_cast (by omega : -1000000000 ≤ nsec)
    push_cast at this ⊢
    linarith
  refine ⟨?_, ?_, ?_, ?_⟩
  · have := roundF64_mono hq2
    rw [hm1] at this
    push_cast at this
    exact this
  · have := roundF64_mono hq1
    rw [h1] at this
    push_cast at this
    exact this
  · intro h0
    have hq : (0 : ℚ) ≤ (nsec : ℚ) / 1000000000 := by
      apply div_nonneg
      · exact_mod_cast h0
      · norm_num
    have := roundF64_mono hq
    rwa [roundF64_zero] at this
  · intro h0
    have hq : (nsec : ℚ) / 1000000000 ≤ 0 := by
      apply div_nonpos_of_nonpos_of_nonneg
      · exact_mod_cast h0
      · norm_num
    have := roundF64_mono hq
    rwa [roundF64_zero] at this

/-- The method `Duration.Seconds` is monotone on int64 durations. -/
theorem Seconds_mono (d1 d2 : Int) (hlo : minDuration ≤ d1) (hhi : d2 ≤ maxDuration)
    (h : d1 ≤ d2) : Seconds d1 ≤ Seconds d2 := by
  unfold minDuration at hlo
  unfold maxDuration at hhi
  obtain ⟨e1, l1, u1, p1, n1⟩ := tdiv_tmod_second d1
  obtain ⟨e2, l2, u2, p2, n2⟩ := tdiv_tmod_second d2
  obtain ⟨fl1, fu1, fp1, fn1⟩ := fraction_bounds (d1.tmod 1000000000) l1 u1
  obtain ⟨fl2, fu2, fp2, fn2⟩ := fraction_bounds (d2.tmod 1000000000) l2 u2
  have hs1 : roundF64 ((d1.tdiv 1000000000 : ℤ) : ℚ) = (d1.tdiv 1000000000 : ℤ) :=
    roundF64_intCast _ (by omega) (by omega)
  have hs2 : roundF64 ((d2.tdiv 1000000000 : ℤ) : ℚ) = (d2.tdiv 1000000000 : ℤ) :=
    roundF64_intCast _ (by omega) (by omega)
  unfold Seconds Second
  simp only
  rw [hs1, hs2]
  apply roundF64_mono
  have hsec : d1.tdiv 1000000000 ≤ d2.tdiv 1000000000 := by omega
  rcases lt_or_eq_of_le hsec with hlt | heq
  · have hq : ((d1.tdiv 1000000000 : ℤ) : ℚ) + 1 ≤ ((d2.tdiv 1000000000 : ℤ) : ℚ) := by
      exact_mod_cast hlt
    by_cases hz : 0 ≤ d1.tdiv 1000000000
    · have : 0 ≤ d2.tmod 1000000000 := p2 (by omega)
      have := fp2 this
      linarith
    · have : d1.tmod 1000000000 ≤ 0 := n1 (by omega)
      have := fn1 this
      linarith
  · rw [heq]
    have hn : d1.tmod 1000000000 ≤ d2.tmod 1000000000 := by omega
    have hq : ((d1.tmod 1000000000 : ℤ) : ℚ) ≤ ((d2.tmod 1000000000 : ℤ) : ℚ) := by
      exact_mod_cast hn
    have := roundF64_mono (div_le_div_of_nonneg_right hq (by norm_num : (0 : ℚ) ≤ 1000000000))
    have hr1 : roundF64 ((d1.tmod 1000000000 : ℤ) : ℚ) = (d1.tmod 1000000000 : ℤ) :=
      roundF64_intCast _ (by omega) (by omega)
    have hr2 : roundF64 ((d2.tmod 1000000000 : ℤ) : ℚ) = (d2.tmod 1000000000 : ℤ) :=
      roundF64_intCast _ (by omega) (by omega)
    rw [hr1, hr2]
    linarith

theorem Seconds_zero : Seconds 0 = 0 := by
  simp [Seconds, Second, roundF64]

/-- The int64 difference of two monotonic readings is the exact difference,
clamped to the range of a duration. -/
theorem subMono_eq (t u : Int)
    (ht1 : -9223372036854775808 ≤ t) (ht2 : t < 9223372036854775808)
    (hu1 : -9223372036854775808 ≤ u) (hu2 : u < 9223372036854775808) :
    subMono t u = max minDuration (min maxDuration (t - u)) := by
  unfold subMono wrapInt64 minDuration maxDuration
  simp only
  split_ifs <;> omega

/-! ## C7: uptime -/

/-- C7.  The uptime `healthHandler` reports is `time.Since(startTime).Seconds()`:
the int64 difference between the monotonic clock reading taken at the call and
that of `startTime`, converted to float64 seconds.  For two calls in processes with
the same `startTime`, if the first call's reading is not after the second's, the
first uptime is at most the second; and a reading at or after `startTime` gives a
non-negative uptime.  No handler changes `startTime`: not `healthHandler`, not
`docsHandler`, not the router, and the two middleware keep it whenever their inner
handler does. -/
theorem uptime_monotone (w1 w2 : ResponseWriter) (r1 r2 : Request) (σ1 σ2 : World)
    (hstart : σ2.startTime = σ1.startTime)
    (hle : (σ1.clock (σ1.reads + 1)).mono ≤ (σ2.clock (σ2.reads + 1)).mono) :
    ∃ resp1 resp2,
      encodedValues (healthHandler w1 r1 σ1).1 = [resp1] ∧
      encodedValues (healthHandler w2 r2 σ2).1 = [resp2] ∧
      resp1.Uptime = Seconds (subMono (σ1.clock (σ1.reads + 1)).mono σ1.startTime.mono) ∧
      resp2.Uptime = Seconds (subMono (σ2.clock (σ2.reads + 1)).mono σ1.startTime.mono) ∧
      resp1.Uptime ≤ resp2.Uptime ∧
      (σ1.startTime.mono ≤ (σ1.clock (σ1.reads + 1)).mono → 0 ≤ resp1.Uptime) ∧
      (healthHandler w1 r1 σ1).2.startTime = σ1.startTime ∧
      (docsHandler w1 r1 σ1).2.startTime = σ1.startTime ∧
      (mainRouter.ServeHTTP w1 r1 σ1).2.startTime = σ1.startTime ∧
      (loggingMiddleware (securityHeadersMiddleware mainRouter.ServeHTTP) w1 r1
        σ1).2.startTime = σ1.startTime ∧
      (∀ next : Handler, (∀ w r σ, (next w r σ).2.startTime = σ.startTime) →
        ∀ w r σ, (securityHeadersMiddleware next w r σ).2.startTime = σ.startTime ∧
          (loggingMiddleware next w r σ).2.startTime = σ.startTime) := by
  have hd1 := subMono_eq (σ1.clock (σ1.reads + 1)).mono σ1.startTime.mono
    (σ1.clock (σ1.reads + 1)).mono_ge (σ1.clock (σ1.reads + 1)).mono_lt
    σ1.startTime.mono_ge σ1.startTime.mono_lt
  have hd2 := subMono_eq (σ2.clock (σ2.reads + 1)).mono σ1.startTime.mono
    (σ2.clock (σ2.reads + 1)).mono_ge (σ2.clock (σ2.reads + 1)).mono_lt
    σ1.startTime.mono_ge σ1.startTime.mono_lt
  have hrouter : (mainRouter.ServeHTTP w1 r1 σ1).2.startTime = σ1.startTime := by
    rcases mainRouter_world w1 r1 σ1 with h | h <;> rw [h]
  refine ⟨_, _, healthHandler_encoded w1 r1 σ1, healthHandler_encoded w2 r2 σ2, rfl,
    by rw [hstart], ?_, ?_, rfl, rfl, hrouter, ?_, ?_⟩
  · show Seconds (subMono (σ1.clock (σ1.reads + 1)).mono σ1.startTime.mono) ≤
      Seconds (subMono (σ2.clock (σ2.reads + 1)).mono σ2.startTime.mono)
    rw [hstart]
    apply Seconds_mono
    · rw [hd1]; exact le_max_left _ _
    · rw [hd2]; exact max_le (by decide) (min_le_left _ _)
    · rw [hd1, hd2]
      unfold minDuration maxDuration
      omega
  · intro h0
    show 0 ≤ Seconds (subMono (σ1.clock (σ1.reads + 1)).mono σ1.startTime.mono)
    rw [← Seconds_zero]
    apply Seconds_mono
    · decide
    · rw [hd1]; exact max_le (by decide) (min_le_left _ _)
    · rw [hd1]
      unfold minDuration maxDuration
      omega
  · rw [loggingMiddleware_eq, securityHeadersMiddleware_eq]
    rcases mainRouter_world (exec w1 securityOps) r1 σ1.Now.2 with h | h <;> rw [h] <;> rfl
  · intro next hnext w r σ
    constructor
    · rw [securityHeadersMiddleware_eq]
      exact hnext _ _ _
    · rw [loggingMiddleware_eq]
      exact hnext _ _ _

/-- C7 at concrete inputs: two calls on the sample clock, the second one reading
later, report uptimes in that order, and the first is not negative. -/
theorem uptime_monotone_witness :
    ((sampleWorld []).clock ((sampleWorld []).reads + 1)).mono ≤
      ({ sampleWorld [] with reads := 5 }.clock
        ({ sampleWorld [] with reads := 5 }.reads + 1)).mono ∧
    (encodedValues (healthHandler ResponseWriter.new (sampleRequest "GET" "/api/health")
        (sampleWorld [])).1).map (fun v => v.Uptime) = [Seconds 200000000] ∧
    (encodedValues (healthHandler ResponseWriter.new (sampleRequest "GET" "/api/health")
        { sampleWorld [] with reads := 5 }).1).map (fun v => v.Uptime) = [Seconds 600000000] ∧
    Seconds 200000000 ≤ Seconds 600000000 ∧ 0 ≤ Seconds 200000000 := by
  obtain ⟨resp1, resp2, e1, e2, u1, u2, hle, h0, _⟩ :=
    uptime_monotone ResponseWriter.new ResponseWriter.new (sampleRequest "GET" "/api/health")
      (sampleRequest "GET" "/api/health") (sampleWorld []) { sampleWorld [] with reads := 5 } rfl
      (by decide)
  have v1 : subMono ((sampleWorld []).clock ((sampleWorld []).reads + 1)).mono
      (sampleWorld []).startTime.mono = 200000000 := by decide
  have v2 : subMono ({ sampleWorld [] with reads := 5 }.clock
      ({ sampleWorld [] with reads := 5 }.reads + 1)).mono
      (sampleWorld []).startTime.mono = 600000000 := by decide
  rw [v1] at u1
  rw [v2] at u2
  rw [u1, u2] at hle
  rw [u1] at h0
  refine ⟨by decide, ?_, ?_, hle, h0 (by decide)⟩
  · rw [e1]; simp [u1]
  · rw [e2]; simp [u2]

/-! ## C5: status and headers of the health response -/

/-- C5.  On a writer whose headers have not been sent, for every request,
`healthHandler` first sets the four headers and then writes the body (its calls are
four `Header().Set` followed by one `Write`); the response has status 200, the
headers sent with it bind Content-Type to application/json, Cache-Control to
no-cache, no-store, must-revalidate, Pragma to no-cache and Expires to 0, the body
is extended by the one encoded value, and every other header name has exactly the
values it had on entry, so each of the eight security headers that was present
stays present.  In particular a GET for `/api/health` served through the logger,
the security middleware and the router of `main` has status 200 and is sent with
the four headers and the eight security headers. -/
theorem healthHandler_response (w : ResponseWriter) (r : Request) (σ : World)
    (hw : w.wroteHeader = false) :
    (∃ resp, (healthHandler w r σ).1 =
      [ .headerSet "Content-Type" "application/json",
        .headerSet "Cache-Control" "no-cache, no-store, must-revalidate",
        .headerSet "Pragma" "no-cache",
        .headerSet "Expires" "0",
        .write (.json resp) ] ∧
      (healthHandler.ServeHTTP w r σ).1.body = w.body ++ [.json resp]) ∧
    (healthHandler.ServeHTTP w r σ).1.wroteHeader = true ∧
    (healthHandler.ServeHTTP w r σ).1.status = 200 ∧
    (healthHandler.ServeHTTP w r σ).1.sent.Values "Content-Type" = some ["application/json"] ∧
    (healthHandler.ServeHTTP w r σ).1.sent.Values "Cache-Control" =
      some ["no-cache, no-store, must-revalidate"] ∧
    (healthHandler.ServeHTTP w r σ).1.sent.Values "Pragma" = some ["no-cache"] ∧
    (healthHandler.ServeHTTP w r σ).1.sent.Values "Expires" = some ["0"] ∧
    (∀ key, CanonicalMIMEHeaderKey key ∉ ["Content-Type", "Cache-Control", "Pragma", "Expires"] →
      (healthHandler.ServeHTTP w r σ).1.sent.Values key = w.header.Values key) ∧
    (∀ kv ∈ securityHeaders, w.header.Values kv.1 = some [kv.2] →
      (healthHandler.ServeHTTP w r σ).1.sent.Values kv.1 = some [kv.2]) ∧
    (r.Method = "GET" → r.URL.Path = "/api/health" →
      (Handler.ServeHTTP (loggingMiddleware (securityHeadersMiddleware mainRouter.ServeHTTP))
        w r σ).1.status = 200 ∧
      ∀ kv ∈ securityHeaders ++
          [ ("Content-Type", "application/json"),
            ("Cache-Control", "no-cache, no-store, must-revalidate"),
            ("Pragma", "no-cache"), ("Expires", "0") ],
        (Handler.ServeHTTP (loggingMiddleware (securityHeadersMiddleware mainRouter.ServeHTTP))
          w r σ).1.sent.Values kv.1 = some [kv.2]) := by
  obtain ⟨a1, a2, a3, a4, a5, a6, a7, a8, a9⟩ := healthHandler_sent w r σ hw
  refine ⟨a1, a2, a3, a4, a5, a6, a7, a8, a9, ?_⟩
  intro hm hp
  obtain ⟨s1, s2, _⟩ := exec_securityOps w
  have hs : mainRouter.ServeHTTP (exec w securityOps) r σ.Now.2 =
      healthHandler (exec w securityOps) r σ.Now.2 := by
    rw [mainRouter_serve]
    simp [hp, hm, cleanPath_routes.1]
  have hchain : (Handler.ServeHTTP
      (loggingMiddleware (securityHeadersMiddleware mainRouter.ServeHTTP)) w r σ).1 =
      (healthHandler.ServeHTTP (exec w securityOps) r σ.Now.2).1 := by
    simp only [Handler.ServeHTTP, loggingMiddleware_eq, securityHeadersMiddleware_eq, hs,
      exec_append]
  obtain ⟨_, _, b3, b4, b5, b6, b7, _, b9⟩ :=
    healthHandler_sent (exec w securityOps) r σ.Now.2 (s2.trans hw)
  rw [hchain]
  refine ⟨b3, ?_⟩
  intro kv hkv
  rcases List.mem_append.mp hkv with h | h
  · exact b9 kv h (s1 kv h)
  · simp only [List.mem_cons, List.mem_singleton, List.not_mem_nil, or_false] at h
    rcases h with h | h | h | h <;> subst h
    · exact b4
    · exact b5
    · exact b6
    · exact b7

/-- C5 at a concrete input: a GET for `/api/health` through the logger, the
security middleware and the router, on a new writer, has status 200, its
Content-Type and its Server header. -/
theorem healthHandler_response_witness :
    ResponseWriter.new.wroteHeader = false ∧
    (Handler.ServeHTTP (loggingMiddleware (securityHeadersMiddleware mainRouter.ServeHTTP))
      ResponseWriter.new (sampleRequest "GET" "/api/health") (sampleWorld [])).1.status = 200 ∧
    (Handler.ServeHTTP (loggingMiddleware (securityHeadersMiddleware mainRouter.ServeHTTP))
      ResponseWriter.new (sampleRequest "GET" "/api/health")
      (sampleWorld [])).1.sent.Values "Content-Type" = some ["application/json"] ∧
    (Handler.ServeHTTP (loggingMiddleware (securityHeadersMiddleware mainRouter.ServeHTTP))
      ResponseWriter.new (sampleRequest "GET" "/api/health")
      (sampleWorld [])).1.sent.Values "Server" = some ["MNNR-Go"] := by
  have h := (healthHandler_response ResponseWriter.new (sampleRequest "GET" "/api/health")
    (sampleWorld []) rfl).2.2.2.2.2.2.2.2.2 rfl rfl
  exact ⟨rfl, h.1, h.2 ("Content-Type", "application/json") (by decide),
    h.2 ("Server", "MNNR-Go") (by decide)⟩

end GoServer
